import Mathlib

/-!
Verification of the invoice-extraction core of `food-cost-analyze`.

The Python sources (`src/extractors.py`, `src/utils.py`, `src/vendors.py`)
are shallowly embedded below: pure functions become Lean functions over
`List Char` / `String` / `ℚ` (Python floats are modelled as rationals,
Python exceptions as `Except`), the regular expressions used by the
vendor parsers and the JSON repair ladder are embedded via a small
backtracking matcher, and the top-level extraction pipeline is modelled
as a function of an environment that records the outcome of each
external operation (file reads, pdf page extraction, network call).
-/

set_option maxRecDepth 40000
set_option maxHeartbeats 2000000

namespace FoodCost

/-! ## Basic character/string helpers (Python `str` operations) -/

/-- Python whitespace characters (`str.strip`, regex `\s`), ASCII part. -/
def isWs (c : Char) : Bool :=
  c = ' ' || c = '\t' || c = '\n' || c = '\r' || c = '\x0b' || c = '\x0c'

/-- Upper-to-lower pairs for the ASCII letters. -/
def lowPairs : List (Char × Char) :=
  [('A', 'a'), ('B', 'b'), ('C', 'c'), ('D', 'd'), ('E', 'e'), ('F', 'f'),
   ('G', 'g'), ('H', 'h'), ('I', 'i'), ('J', 'j'), ('K', 'k'), ('L', 'l'),
   ('M', 'm'), ('N', 'n'), ('O', 'o'), ('P', 'p'), ('Q', 'q'), ('R', 'r'),
   ('S', 's'), ('T', 't'), ('U', 'u'), ('V', 'v'), ('W', 'w'), ('X', 'x'),
   ('Y', 'y'), ('Z', 'z')]

/-- ASCII lower-casing of one character, as Python `str.lower` acts on ASCII. -/
def lowChar (c : Char) : Char :=
  match lowPairs.find? (fun p => p.1 = c) with
  | some p => p.2
  | none => c

/-- ASCII upper-casing of one character (used by Python `str.title`). -/
def upChar (c : Char) : Char :=
  match lowPairs.find? (fun p => p.2 = c) with
  | some p => p.1
  | none => c

def lowerL (l : List Char) : List Char := l.map lowChar

/-- Python `str.lower` (ASCII model). -/
def pyLower (s : String) : String := ⟨lowerL s.data⟩

/-- Python `str.strip` on a character list. -/
def stripL (l : List Char) : List Char :=
  ((l.dropWhile isWs).reverse.dropWhile isWs).reverse

/-- Python `str.strip`. -/
def pyStrip (s : String) : String := ⟨stripL s.data⟩

/-- Does `pre` occur as a prefix of `l`? -/
def startsWithL : List Char → List Char → Bool
  | [], _ => true
  | _ :: _, [] => false
  | p :: ps, c :: cs => p = c && startsWithL ps cs

/-- Python `sub in s` substring test on character lists. -/
def containsSubL (l sub : List Char) : Bool :=
  match l with
  | [] => startsWithL sub []
  | _ :: rest => startsWithL sub l || containsSubL rest sub

/-- Python `sub in s` substring test. -/
def containsSub (s sub : String) : Bool := containsSubL s.data sub.data

/-- Python `s.endswith(suffix)`. -/
def endsWith (s suffix : String) : Bool := startsWithL suffix.data.reverse s.data.reverse

/-- Split a character list at every occurrence of `sep` (Python `str.split('\n')`). -/
def splitOnCharL (sep : Char) : List Char → List (List Char)
  | [] => [[]]
  | c :: cs =>
    let rest := splitOnCharL sep cs
    if c = sep then [] :: rest
    else
      match rest with
      | [] => [[c]]
      | r :: rs => (c :: r) :: rs

/-- Replace every occurrence of character `a` by `b`. -/
def replaceCharL (a b : Char) (l : List Char) : List Char :=
  l.map fun c => if c = a then b else c

/-- First-match association lookup (Python `dict.get` on a literal dict,
insertion order preserved). -/
def lookupAssoc (m : List (String × String)) (k : String) : Option String :=
  match m with
  | [] => none
  | (k', v) :: rest => if k = k' then some v else lookupAssoc rest k

/-! ## Numeric helpers (Python `float(...)` on the strings the parsers build) -/

def digitVal (c : Char) : Nat := c.toNat - 48

def natOfDigitsL (l : List Char) : Nat :=
  l.foldl (fun acc c => acc * 10 + digitVal c) 0

/-- `float(s)` for a string of digits optionally followed by `.` and digits
(the only shapes the regex groups can produce after comma removal).
Returns `none` when `s` is not such a numeral (Python would raise
`ValueError`). -/
def pyFloatOfDigits (l : List Char) : Option ℚ :=
  let ok (d : List Char) := !d.isEmpty && d.all (·.isDigit)
  match splitOnCharL '.' l with
  | [intPart] => if ok intPart then some (mkRat (natOfDigitsL intPart) 1) else none
  | [intPart, fracPart] =>
    if ok intPart && ok fracPart then
      some (mkRat
        (natOfDigitsL intPart * 10 ^ fracPart.length + natOfDigitsL fracPart)
        (10 ^ fracPart.length))
    else none
  | _ => none

/-- Remove commas then convert, modelling `float(group.replace(',', ''))`. -/
def floatNoCommas (l : List Char) : ℚ :=
  (pyFloatOfDigits (l.filter (· ≠ ','))).getD 0

/-! ## `utils.normalize_unit` (src/utils.py lines 125-192) -/

/-- The literal `unit_map` dictionary from `normalize_unit`. -/
def unit_map : List (String × String) :=
  [("キログラム", "kg"), ("kilo", "kg"), ("kilogram", "kg"), ("kg", "kg"),
   ("グラム", "g"), ("gram", "g"), ("grams", "g"), ("g", "g"),
   ("100g", "100g"), ("100グラム", "100g"),
   ("個", "pc"), ("本", "pc"), ("丁", "pc"), ("枚", "pc"), ("尾", "pc"),
   ("匹", "pc"), ("pc", "pc"), ("pcs", "pc"), ("piece", "pc"),
   ("pieces", "pc"), ("unit", "pc"), ("units", "pc"), ("ea", "pc"),
   ("each", "pc"),
   ("缶", "can"), ("can", "can"), ("cans", "can"), ("tin", "can"),
   ("tins", "can"),
   ("箱", "box"), ("box", "box"), ("boxes", "box"),
   ("パック", "pack"), ("pack", "pack"), ("packs", "pack"), ("pkg", "pack"),
   ("package", "pack"),
   ("bottle", "bottle"), ("bottles", "bottle"),
   ("jar", "jar"), ("jars", "jar"),
   ("bag", "bag"), ("bags", "bag")]

/-- `normalize_unit(unit)`: empty input gives `'pc'`; otherwise the input is
stripped, lower-cased and looked up in `unit_map`, falling back to the
stripped lower-cased input itself. -/
def normalize_unit (unit : String) : String :=
  if unit = "" then "pc"
  else
    let s : String := ⟨lowerL (stripL unit.data)⟩
    match lookupAssoc unit_map s with
    | some v => v
    | none => s

/-! ## `utils.convert_quantity_to_grams` row function (src/utils.py 716-756) -/

def container_units : List String :=
  ["pc", "can", "box", "pack", "tin", "bottle", "jar", "bag", "unit"]

/-- The per-row conversion inside `convert_quantity_to_grams`: quantities in
`kg`/`g`/`100g` are converted by the weight rules, every other (container or
unknown) unit is multiplied by the caller-supplied `default_unit_grams`. -/
def convert_row (qty : ℚ) (unit : String) (default_unit_grams : ℚ) : ℚ :=
  let u := normalize_unit unit
  if u = "kg" then qty * 1000
  else if u = "g" then qty
  else if u = "100g" then qty * 100
  else if container_units.contains u then qty * default_unit_grams
  else qty * default_unit_grams

/-! ## A small backtracking regex engine

Embeds the `re` patterns used by `src/extractors.py`.  Alternation
prefers the left branch, greedy repetition prefers longer matches, lazy
repetition prefers shorter ones, and `search` returns the leftmost
match — the same backtracking order as Python's `re`. -/

inductive RE where
  | eps
  | cls (p : Char → Bool)
  | lit (cs : List Char)
  | litci (cs : List Char)
  | seq (a b : RE)
  | alt (a b : RE)
  | star (greedy : Bool) (a : RE)
  | opt (greedy : Bool) (a : RE)
  | group (i : Nat) (a : RE)

abbrev Caps := List (Nat × List Char)

def capGet (caps : Caps) (i : Nat) : List Char :=
  match caps.find? (fun p => p.1 = i) with
  | some p => p.2
  | none => []

def reSize : RE → Nat
  | .eps => 1
  | .cls _ => 1
  | .lit cs => cs.length + 1
  | .litci cs => cs.length + 1
  | .seq a b => reSize a + reSize b + 1
  | .alt a b => reSize a + reSize b + 1
  | .star _ a => reSize a + 1
  | .opt _ a => reSize a + 1
  | .group _ a => reSize a + 1

/-- Case-insensitive prefix test (for patterns compiled with `re.IGNORECASE`). -/
def startsWithCIL : List Char → List Char → Bool
  | [], _ => true
  | _ :: _, [] => false
  | p :: ps, c :: cs => lowChar p = lowChar c && startsWithCIL ps cs

/-- CPS backtracking matcher.  `reM fuel r s caps k` matches `r` against a
prefix of `s`, extending captures `caps`, and calls `k` on the rest. -/
def reM : Nat → RE → List Char → Caps →
    (List Char → Caps → Option (List Char × Caps)) → Option (List Char × Caps)
  | 0, _, _, _, _ => none
  | fuel + 1, r, s, caps, k =>
    match r with
    | .eps => k s caps
    | .cls p =>
      match s with
      | c :: s' => if p c then k s' caps else none
      | [] => none
    | .lit cs => if startsWithL cs s then k (s.drop cs.length) caps else none
    | .litci cs => if startsWithCIL cs s then k (s.drop cs.length) caps else none
    | .seq a b => reM fuel a s caps (fun s' caps' => reM fuel b s' caps' k)
    | .alt a b =>
      match reM fuel a s caps k with
      | some res => some res
      | none => reM fuel b s caps k
    | .star g a =>
      if g then
        match reM fuel a s caps (fun s' caps' =>
            if s'.length < s.length then reM fuel (.star true a) s' caps' k
            else none) with
        | some res => some res
        | none => k s caps
      else
        match k s caps with
        | some res => some res
        | none =>
          reM fuel a s caps (fun s' caps' =>
            if s'.length < s.length then reM fuel (.star false a) s' caps' k
            else none)
    | .opt g a =>
      if g then
        match reM fuel a s caps k with
        | some res => some res
        | none => k s caps
      else
        match k s caps with
        | some res => some res
        | none => reM fuel a s caps k
    | .group i a =>
      reM fuel a s caps (fun s' caps' =>
        k s' ((i, s.take (s.length - s'.length)) :: caps'))

def reFuel (r : RE) (s : List Char) : Nat :=
  (reSize r + 4) * (s.length + 4) + 1000

/-- Anchored match attempt at the head of `s`. -/
def reMatchAt (r : RE) (s : List Char) : Option (List Char × Caps) :=
  reM (reFuel r s) r s [] (fun rest caps => some (rest, caps))

/-- Python `re.search`: leftmost match; returns
`(matched text, rest after match, captures)`. -/
def reSearchL (r : RE) : List Char → Option (List Char × List Char × Caps)
  | [] =>
    match reMatchAt r [] with
    | some (rest, caps) => some ([], rest, caps)
    | none => none
  | s@(_ :: s') =>
    match reMatchAt r s with
    | some (rest, caps) => some (s.take (s.length - rest.length), rest, caps)
    | none => reSearchL r s'

/-- Python `re.finditer`: successive non-overlapping leftmost matches. -/
def reFindAllL (r : RE) : Nat → List Char → List (List Char × Caps)
  | 0, _ => []
  | fuel + 1, s =>
    match reSearchL r s with
    | some (m, rest, caps) =>
      if m.isEmpty then []
      else (m, caps) :: reFindAllL r fuel rest
    | none => []

def reFindAll (r : RE) (s : List Char) : List (List Char × Caps) :=
  reFindAllL r (s.length + 1) s

/-! ### Pattern combinators and character classes -/

def rseq : List RE → RE
  | [] => .eps
  | [r] => r
  | r :: rs => .seq r (rseq rs)

def raltL : List RE → RE
  | [] => .cls (fun _ => false)
  | [r] => r
  | r :: rs => .alt r (raltL rs)

def rstr (s : String) : RE := .lit s.data
def rstrCI (s : String) : RE := .litci s.data
def rchar (c : Char) : RE := .lit [c]
def rplus (g : Bool) (r : RE) : RE := .seq r (.star g r)

def repN : Nat → RE → RE
  | 0, _ => .eps
  | n + 1, r => .seq r (repN n r)

def digitP (c : Char) : Bool := c.isDigit
/-- `.` without `re.DOTALL`: any character except newline. -/
def dotAny (c : Char) : Bool := c != '\n'
def digitCommaP (c : Char) : Bool := c.isDigit || c = ','
def digitDotP (c : Char) : Bool := c.isDigit || c = '.'
def notQuoteP (c : Char) : Bool := c != '"'
def dotOrCommaP (c : Char) : Bool := c = '.' || c = ','
def underscoreWsP (c : Char) : Bool := c = '_' || isWs c
/-- The class `[ぁ-んァ-ン一-龥ー]` from the Maruyata product pattern. -/
def kanaKanjiP (c : Char) : Bool :=
  (0x3041 ≤ c.val && c.val ≤ 0x3093) || (0x30A1 ≤ c.val && c.val ≤ 0x30F3) ||
  (0x4E00 ≤ c.val && c.val ≤ 0x9F65) || c.val = 0x30FC

def wsStar : RE := .star true (.cls isWs)
def wsPlus : RE := rplus true (.cls isWs)
def lazyDotStar : RE := .star false (.cls dotAny)

/-! ### The concrete patterns of `src/extractors.py` -/

/-- `(\d{4})年(\d{1,2})月` (invoice header year/month). -/
def headerYMPat : RE :=
  rseq [.group 1 (repN 4 (.cls digitP)), rstr "年",
        .group 2 (.seq (.cls digitP) (.opt true (.cls digitP))), rstr "月"]

/-- `(\d{2})/(\d{2})/(\d{2})` (per-line date token). -/
def slashDatePat : RE :=
  rseq [.group 1 (repN 2 (.cls digitP)), rchar '/',
        .group 2 (repN 2 (.cls digitP)), rchar '/',
        .group 3 (repN 2 (.cls digitP))]

/-- The Hirayama beef pattern (compiled with `re.IGNORECASE`):
`(和牛ヒレ|和生ヒレ|牛ヒレ|ヒレ).*?(\d+\.\d+)\s*kg.*?([\d,]+)\s+([\d,]+)`. -/
def beefPat : RE :=
  rseq [.group 1 (raltL [rstr "和牛ヒレ", rstr "和生ヒレ", rstr "牛ヒレ", rstr "ヒレ"]),
        lazyDotStar,
        .group 2 (rseq [rplus true (.cls digitP), rchar '.', rplus true (.cls digitP)]),
        wsStar, rstrCI "kg", lazyDotStar,
        .group 3 (rplus true (.cls digitCommaP)), wsPlus,
        .group 4 (rplus true (.cls digitCommaP))]

/-- `(キャビア|KAVIARI|キャヴィア).*?(\d+)\s*(?:缶|個|pc)?\s*([\d,]+)\s+([\d,]+)`. -/
def caviarPat : RE :=
  rseq [.group 1 (raltL [rstr "キャビア", rstrCI "KAVIARI", rstr "キャヴィア"]),
        lazyDotStar, .group 2 (rplus true (.cls digitP)), wsStar,
        .opt true (raltL [rstr "缶", rstr "個", rstrCI "pc"]), wsStar,
        .group 3 (rplus true (.cls digitCommaP)), wsPlus,
        .group 4 (rplus true (.cls digitCommaP))]

/-- `(バター|butter|ブール|パレット).*?(\d+)\s*(?:個|pc)?\s*([\d,]+)\s+([\d,]+)`. -/
def butterPat : RE :=
  rseq [.group 1 (raltL [rstr "バター", rstrCI "butter", rstr "ブール", rstr "パレット"]),
        lazyDotStar, .group 2 (rplus true (.cls digitP)), wsStar,
        .opt true (raltL [rstr "個", rstrCI "pc"]), wsStar,
        .group 3 (rplus true (.cls digitCommaP)), wsPlus,
        .group 4 (rplus true (.cls digitCommaP))]

/-- The Maruyata product pattern:
`([ぁ-んァ-ン一-龥ー]+(?:サーモン|ホタテ)?)\s+(\d+(?:[.,]\d+)?)\s*(kg|丁|本|個|g)\s*([\d,]+)\s+([\d,]+)`. -/
def maruyataProductPat : RE :=
  rseq [.group 1 (.seq (rplus true (.cls kanaKanjiP))
          (.opt true (raltL [rstr "サーモン", rstr "ホタテ"]))),
        wsPlus,
        .group 2 (.seq (rplus true (.cls digitP))
          (.opt true (.seq (.cls dotOrCommaP) (rplus true (.cls digitP))))),
        wsStar,
        .group 3 (raltL [rstr "kg", rstr "丁", rstr "本", rstr "個", rstr "g"]),
        wsStar,
        .group 4 (rplus true (.cls digitCommaP)), wsPlus,
        .group 5 (rplus true (.cls digitCommaP))]

/-! ## The canonical line-item record -/

structure Record where
  vendor : String
  date : String
  item_name : String
  quantity : ℚ
  unit : String
  unit_price : ℚ
  amount : ℚ
  deriving DecidableEq, Repr

/-! ## Vendor regex parsers (src/extractors.py 815-1001) -/

/-- Pad a digit group to two characters (Python `str.zfill(2)`). -/
def zfill2 (l : List Char) : List Char :=
  if l.length ≥ 2 then l else List.replicate (2 - l.length) '0' ++ l

/-- Header year/month via `(\d{4})年(\d{1,2})月`, with the literal
fallbacks `"2025"` / `"10"` from the source. -/
def invoiceYM (t : List Char) : List Char × List Char :=
  match reSearchL headerYMPat t with
  | some (_, _, caps) => (capGet caps 1, zfill2 (capGet caps 2))
  | none => ("2025".data, "10".data)

/-- `f"{invoice_year}-{invoice_month}-01"`. -/
def ymFallbackDate (t : List Char) : String :=
  let ym := invoiceYM t
  ⟨ym.1 ++ ('-' :: ym.2) ++ ['-', '0', '1']⟩

/-- A `(\d{2})/(\d{2})/(\d{2})` token in a line, formatted
`f"20{yy}-{mm}-{dd}"`. -/
def dateTokOf (line : List Char) : Option String :=
  match reSearchL slashDatePat line with
  | some (_, _, caps) =>
    some ⟨('2' :: '0' :: capGet caps 1) ++ ('-' :: capGet caps 2) ++
          ('-' :: capGet caps 3)⟩
  | none => none

/-! ### Hirayama -/

def hirayamaVendor : String := "ミートショップひら山 (Meat Shop Hirayama)"

/-- The Python dedup key is the string `f"{current_date}-{qty}-{amount}"`;
since the float reprs of quantity and amount determine them, it is
modelled as the component triple. -/
abbrev HKey := String × ℚ × ℚ

def hKey (r : Record) : HKey := (r.date, r.quantity, r.amount)

/-- Candidate record from one Hirayama line via the beef pattern,
stamped with the line's current date `cur`. -/
def hEmit (line : List Char) (cur : String) : Option Record :=
  match reSearchL beefPat line with
  | some (_, _, caps) =>
    some { vendor := hirayamaVendor
           date := cur
           item_name := "和牛ヒレ"
           quantity := (pyFloatOfDigits (capGet caps 2)).getD 0
           unit := "kg"
           unit_price := floatNoCommas (capGet caps 3)
           amount := floatNoCommas (capGet caps 4) }
  | none => none

structure HState where
  cur : String
  processed : List HKey
  records : List Record

/-- One iteration of the Hirayama line loop: update the carried date from
a date token, then match the beef pattern and append the record unless
its dedup key was already seen. -/
def hirayamaStep (st : HState) (line : List Char) : HState :=
  let cur := match dateTokOf line with
             | some d => d
             | none => st.cur
  match hEmit line cur with
  | some r =>
    if hKey r ∈ st.processed then { st with cur := cur }
    else { cur := cur, processed := hKey r :: st.processed,
           records := st.records ++ [r] }
  | none => { st with cur := cur }

/-- `parse_hirayama_invoice` (src/extractors.py 815-863). -/
def parse_hirayama_invoice (text : String) : List Record :=
  let t := text.data
  let lines := splitOnCharL '\n' (replaceCharL '|' ' ' t)
  (lines.foldl hirayamaStep
    { cur := ymFallbackDate t, processed := [], records := [] }).records

/-! ### French F&B -/

def fnbVendor : String := "フレンチ・エフ・アンド・ビー (French F&B Japan)"

/-- Python keys are `f"caviar-{qty}-{amount}"` / `f"butter-{qty}-{amount}"`;
modelled as a tagged triple, `true` for caviar. -/
abbrev FnbKey := Bool × ℚ × ℚ

def fnbCaviarEmit (date : String) (line : List Char) : Option (FnbKey × Record) :=
  match reSearchL caviarPat line with
  | some (_, _, caps) =>
    let qty : ℚ := (pyFloatOfDigits (capGet caps 2)).getD 0
    let amount := floatNoCommas (capGet caps 4)
    some ((true, qty, amount),
      { vendor := fnbVendor, date := date,
        item_name := "KAVIARI キャビア クリスタル", quantity := qty,
        unit := "100g", unit_price := floatNoCommas (capGet caps 3),
        amount := amount })
  | none => none

def fnbButterEmit (date : String) (line : List Char) : Option (FnbKey × Record) :=
  match reSearchL butterPat line with
  | some (_, _, caps) =>
    let qty : ℚ := (pyFloatOfDigits (capGet caps 2)).getD 0
    let amount := floatNoCommas (capGet caps 4)
    some ((false, qty, amount),
      { vendor := fnbVendor, date := date,
        item_name := "パレット ロンド バター", quantity := qty,
        unit := "pc", unit_price := floatNoCommas (capGet caps 3),
        amount := amount })
  | none => none

/-- The source guards the butter branch with `'caviar' not in processed`.
`processed` only ever holds the formatted keys `"caviar-…-…"` /
`"butter-…-…"`, never the bare string `'caviar'`, so that set-membership
test is always false; under the tagged-key model it is the constant
`false`. -/
def processedContainsBareCaviar (_ : List FnbKey) : Bool := false

structure FnbState where
  processed : List FnbKey
  records : List Record

/-- One iteration of the French F&B line loop: the caviar pattern, then
the butter pattern, each deduplicated against the shared key set. -/
def fnbStep (date : String) (st : FnbState) (line : List Char) : FnbState :=
  let st1 :=
    match fnbCaviarEmit date line with
    | some (k, r) =>
      if k ∈ st.processed then st
      else { processed := k :: st.processed, records := st.records ++ [r] }
    | none => st
  match fnbButterEmit date line with
  | some (k, r) =>
    if processedContainsBareCaviar st1.processed then st1
    else if k ∈ st1.processed then st1
    else { processed := k :: st1.processed, records := st1.records ++ [r] }
  | none => st1

/-- `parse_french_fnb_invoice` (src/extractors.py 866-933). -/
def parse_french_fnb_invoice (text : String) : List Record :=
  let t := text.data
  let lines := splitOnCharL '\n' t
  (lines.foldl (fnbStep (ymFallbackDate t))
    { processed := [], records := [] }).records

/-! ### Maruyata -/

def maruyataVendor : String := "丸弥太 (Maruyata Seafood)"

/-- Lines skipped before any matching (`伝票合計`, `※※`, `振込`, `請求書`,
`伝票日付`, `銀行口座`). -/
def mSkipLine (line : List Char) : Bool :=
  containsSubL line "伝票合計".data || containsSubL line "※※".data ||
  containsSubL line "振込".data || containsSubL line "請求書".data ||
  containsSubL line "伝票日付".data || containsSubL line "銀行口座".data

def mBadName : List String := ["伝票", "合計", "入金", "消費税"]

/-- Python key `f"{current_date}-{product_name}-{qty}-{amount}"` (`amount`
still a string at that point), modelled componentwise. -/
abbrev MKey := String × String × ℚ × String

/-- Candidate from one Maruyata line via the product pattern; requires a
current date and a product name outside the skip list. -/
def mEmit (line : List Char) (cur : String) : Option (MKey × Record) :=
  match reSearchL maruyataProductPat line with
  | some (_, _, caps) =>
    let product_name : String := ⟨stripL (capGet caps 1)⟩
    let qty_str := (capGet caps 2).map (fun c => if c = ',' then '.' else c)
    let unit_price := (capGet caps 4).filter (· ≠ ',')
    let amount := (capGet caps 5).filter (· ≠ ',')
    if mBadName.contains product_name then none
    else
      match pyFloatOfDigits qty_str with
      | some qty =>
        some ((cur, product_name, qty, ⟨amount⟩),
          { vendor := maruyataVendor, date := cur, item_name := product_name,
            quantity := qty, unit := ⟨capGet caps 3⟩,
            unit_price := (pyFloatOfDigits unit_price).getD 0,
            amount := (pyFloatOfDigits amount).getD 0 })
      | none => none
  | none => none

structure MState where
  cur : Option String
  processed : List MKey
  records : List Record

/-- One iteration of the Maruyata line loop: strip the line, skip
subtotal/header lines, update the carried date (initially absent), and
emit only when a date has been seen. -/
def maruyataStep (st : MState) (rawLine : List Char) : MState :=
  let line := stripL rawLine
  if mSkipLine line then st
  else
    let cur := match dateTokOf line with
               | some d => some d
               | none => st.cur
    match cur with
    | none => { st with cur := cur }
    | some c =>
      match mEmit line c with
      | some (k, r) =>
        if k ∈ st.processed then { st with cur := cur }
        else { cur := cur, processed := k :: st.processed,
               records := st.records ++ [r] }
      | none => { st with cur := cur }

/-- `parse_maruyata_invoice` (src/extractors.py 936-1001).  The header
year (`(\d{4})年(\d{1,2})月`) is extracted in the source but never used:
the binding below mirrors that dead assignment. -/
def parse_maruyata_invoice (text : String) : List Record :=
  let t := text.data
  let _invoice_year := invoiceYM t
  let lines := splitOnCharL '\n' t
  (lines.foldl maruyataStep
    { cur := none, processed := [], records := [] }).records

/-! ## JSON values and `json.loads`

Models the subset of Python's `json` used by the AI extraction path:
objects, arrays, strings with escapes, numbers, `true`/`false`/`null`;
a parse error yields `none` (Python raises `JSONDecodeError`). -/

def lbrace : Char := Char.ofNat 123
def rbrace : Char := Char.ofNat 125

/-- JSON insignificant whitespace (space, tab, newline, carriage return). -/
def jWs (c : Char) : Bool := c = ' ' || c = '\t' || c = '\n' || c = '\r'

inductive Json where
  | null
  | bool (b : Bool)
  | num (q : ℚ)
  | str (s : String)
  | arr (xs : List Json)
  | obj (fields : List (String × Json))

def hexVal (c : Char) : Option Nat :=
  if c.isDigit then some (c.toNat - 48)
  else if 'a' ≤ c ∧ c ≤ 'f' then some (c.toNat - 87)
  else if 'A' ≤ c ∧ c ≤ 'F' then some (c.toNat - 55)
  else none

/-- Parse the remainder of a JSON string literal (opening quote already
consumed); returns the decoded characters and the rest of the input.
`\uXXXX` escapes decode to the scalar value (surrogate pairing is not
modelled; no input in this development uses it). -/
def jStringRest : Nat → List Char → Option (List Char × List Char)
  | 0, _ => none
  | _, [] => none
  | fuel + 1, c :: s =>
    if c = '"' then some ([], s)
    else if c = '\\' then
      match s with
      | [] => none
      | e :: s' =>
        let dec : Option (Char × List Char) :=
          if e = '"' then some ('"', s')
          else if e = '\\' then some ('\\', s')
          else if e = '/' then some ('/', s')
          else if e = 'b' then some ('\x08', s')
          else if e = 'f' then some ('\x0c', s')
          else if e = 'n' then some ('\n', s')
          else if e = 'r' then some ('\r', s')
          else if e = 't' then some ('\t', s')
          else if e = 'u' then
            match s' with
            | a :: b :: c2 :: d :: rest =>
              match hexVal a, hexVal b, hexVal c2, hexVal d with
              | some x1, some x2, some x3, some x4 =>
                some (Char.ofNat (((x1 * 16 + x2) * 16 + x3) * 16 + x4), rest)
              | _, _, _, _ => none
            | _ => none
          else none
        match dec with
        | some (ch, rest) =>
          match jStringRest fuel rest with
          | some (cs, r) => some (ch :: cs, r)
          | none => none
        | none => none
    else
      match jStringRest fuel s with
      | some (cs, r) => some (c :: cs, r)
      | none => none

/-- Parse a JSON number (`-?(0|[1-9]\d*)(\.\d+)?([eE][+-]?\d+)?`) as a
rational. -/
def jNumber (s : List Char) : Option (ℚ × List Char) :=
  let sgn : Int × List Char :=
    match s with
    | '-' :: rest => (-1, rest)
    | _ => (1, s)
  let s1 := sgn.2
  let intDigits := s1.takeWhile (·.isDigit)
  let s2 := s1.drop intDigits.length
  if intDigits.isEmpty then none
  else if intDigits.length > 1 && intDigits.headD '0' = '0' then none
  else
    let fracStep : Option (List Char × List Char) :=
      match s2 with
      | '.' :: rest =>
        let fd := rest.takeWhile (·.isDigit)
        if fd.isEmpty then none else some (fd, rest.drop fd.length)
      | _ => some ([], s2)
    match fracStep with
    | none => none
    | some (fd, s3) =>
      let expStep : Option (Bool × Nat × List Char) :=
        match s3 with
        | e :: rest =>
          if e = 'e' || e = 'E' then
            let er : Bool × List Char :=
              match rest with
              | '+' :: r => (false, r)
              | '-' :: r => (true, r)
              | _ => (false, rest)
            let ed := er.2.takeWhile (·.isDigit)
            if ed.isEmpty then none
            else some (er.1, natOfDigitsL ed, er.2.drop ed.length)
          else some (false, 0, s3)
        | [] => some (false, 0, s3)
      match expStep with
      | none => none
      | some (eneg, k, s4) =>
        let mantissa : Int :=
          sgn.1 * (natOfDigitsL intDigits * 10 ^ fd.length + natOfDigitsL fd)
        let q : ℚ :=
          if eneg then mkRat mantissa (10 ^ fd.length * 10 ^ k)
          else mkRat (mantissa * 10 ^ k) (10 ^ fd.length)
        some (q, s4)

mutual

def jVal : Nat → List Char → Option (Json × List Char)
  | 0, _ => none
  | fuel + 1, s0 =>
    let s := s0.dropWhile jWs
    match s with
    | [] => none
    | c :: rest =>
      if c = '"' then
        match jStringRest (rest.length + 1) rest with
        | some (cs, r) => some (.str ⟨cs⟩, r)
        | none => none
      else if c = lbrace then jObjBody fuel rest
      else if c = '[' then jArrBody fuel rest
      else if startsWithL "true".data s then some (.bool true, s.drop 4)
      else if startsWithL "false".data s then some (.bool false, s.drop 5)
      else if startsWithL "null".data s then some (.null, s.drop 4)
      else
        match jNumber s with
        | some (q, r) => some (.num q, r)
        | none => none

def jObjBody : Nat → List Char → Option (Json × List Char)
  | 0, _ => none
  | fuel + 1, s0 =>
    let s := s0.dropWhile jWs
    match s with
    | c :: rest =>
      if c = rbrace then some (.obj [], rest)
      else
        match jMembers fuel s with
        | some (ms, r) => some (.obj ms, r)
        | none => none
    | [] => none

def jMembers : Nat → List Char → Option (List (String × Json) × List Char)
  | 0, _ => none
  | fuel + 1, s0 =>
    let s := s0.dropWhile jWs
    match s with
    | '"' :: rest =>
      match jStringRest (rest.length + 1) rest with
      | some (k, r1) =>
        match r1.dropWhile jWs with
        | ':' :: r3 =>
          match jVal fuel r3 with
          | some (v, r4) =>
            match r4.dropWhile jWs with
            | ',' :: r6 =>
              match jMembers fuel r6 with
              | some (ms, r7) => some ((⟨k⟩, v) :: ms, r7)
              | none => none
            | c :: r6 =>
              if c = rbrace then some ([(⟨k⟩, v)], r6) else none
            | [] => none
          | none => none
        | _ => none
      | none => none
    | _ => none

def jArrBody : Nat → List Char → Option (Json × List Char)
  | 0, _ => none
  | fuel + 1, s0 =>
    let s := s0.dropWhile jWs
    match s with
    | ']' :: rest => some (.arr [], rest)
    | _ =>
      match jArrItems fuel s with
      | some (vs, r) => some (.arr vs, r)
      | none => none

def jArrItems : Nat → List Char → Option (List Json × List Char)
  | 0, _ => none
  | fuel + 1, s =>
    match jVal fuel s with
    | some (v, r) =>
      match r.dropWhile jWs with
      | ',' :: r2 =>
        match jArrItems fuel r2 with
        | some (vs, r3) => some (v :: vs, r3)
        | none => none
      | ']' :: r2 => some ([v], r2)
      | _ => none
    | none => none

end

/-- Python `json.loads`: one JSON value followed by only whitespace. -/
def json_loads (s : String) : Option Json :=
  match jVal (4 * (s.data.length + 2)) s.data with
  | some (v, rest) => if (rest.dropWhile jWs).isEmpty then some v else none
  | none => none

/-- Python `dict.get(key, default)` on a parsed JSON object. -/
def jGet (j : Json) (key : String) (default : Json) : Json :=
  match j with
  | .obj fields =>
    match fields.find? (fun p => p.1 = key) with
    | some p => p.2
    | none => default
  | _ => default

/-- Python `str(x)` on a JSON value as it occurs in the conversion loop.
Only string values arise on the paths exercised here; the other branches
are loose renderings. -/
def jAsPyStr : Json → String
  | .str s => s
  | .num q => toString q
  | .bool b => if b then "True" else "False"
  | .null => "None"
  | .arr _ => "[…]"
  | .obj _ => "…"

/-- Python `float(x)` on a JSON value (`ValueError`/`TypeError` as `none`):
numbers pass through, booleans coerce, numeric strings parse, everything
else raises. -/
def pyFloatJson : Json → Option ℚ
  | .num q => some q
  | .bool b => some (if b then 1 else 0)
  | .str s =>
    match jNumber (stripL s.data) with
    | some (q, rest) => if rest.isEmpty then some q else none
    | none => none
  | _ => none

/-! ## `utils.get_clean_vendor_name` and `vendors.VENDOR_NAME_MAP` -/

def VENDOR_NAME_MAP : List (String × String) :=
  [("ミートショップひら山", "Meat Shop Hirayama"),
   ("ひら山", "Meat Shop Hirayama"),
   ("株式会社ミートショップひら山", "Meat Shop Hirayama"),
   ("株式会社ミートショップひらい", "Meat Shop Hirayama"),
   ("ミートショップひらい", "Meat Shop Hirayama"),
   ("株式会社 丸弥太", "Maruyata"),
   ("丸弥太", "Maruyata"),
   ("有限会社浅見水産", "Asami Suisan"),
   ("浅見水産", "Asami Suisan"),
   ("洛北ジビエ イマイ", "Gibier Imai"),
   ("株式会社銀閣寺大西", "Ginkakuji Onishi"),
   ("新利根チーズ工房", "Cheese Kobo"),
   ("タカナシ販売株式会社", "Takanashi"),
   ("有限会社レチェール・ユゲ", "Yuge Farm"),
   ("株式会社ポモナファーム", "Pomona Farm"),
   ("株式会社ミナト　青果事業部", "Minato Seika"),
   ("株式会社ミナト", "Minato"),
   ("万松青果株式会社", "Manmatsu"),
   ("万松青果", "Manmatsu"),
   ("万松青果株式会社 (Manmatsu)", "Manmatsu"),
   ("フレンチ・エフ・アンド・ビー", "French F&B Japan"),
   ("フレンチ・エフ・アンド・ビー・ジャパン株式会社", "French F&B Japan"),
   ("French F&B", "French F&B Japan"),
   ("フレンチ・エフ・アンド・ビー (French F&B Japan)", "French F&B Japan"),
   ("株式会社 LIBERTE JAPON", "Liberte Japon"),
   ("LIBERTE JAPON", "Liberte Japon"),
   ("株式会社 有徳島庄蔵卸月浦明堂", "Nezu Matsumoto"),
   ("ＡＳＩＡＭＩＸ株式会社", "Asiamix"),
   ("株式会社八代目儀兵衛", "Hachidaime Gihei"),
   ("株式会社進々堂", "Shinshindo"),
   ("池伝株式会社　大阪支店", "Ikeden"),
   ("池伝株式会社", "Ikeden"),
   ("ＷＩＳＫジャパン株式会社", "WISK Japan")]

/-- `get_clean_vendor_name` (src/utils.py 71-100): direct lookup, then
first partial match in table order; otherwise the stripped name is
returned unchanged (the source's trailing ASCII check returns the same
value in both of its branches). -/
def get_clean_vendor_name (vendor_name : String) : String :=
  if vendor_name = "" then "Unknown"
  else
    let v := pyStrip vendor_name
    match lookupAssoc VENDOR_NAME_MAP v with
    | some en => en
    | none =>
      match VENDOR_NAME_MAP.find?
          (fun p => containsSub v p.1 || containsSub p.1 v) with
      | some p => p.2
      | none => v

/-! ## AI response processing: the three-stage repair ladder and the
record conversion (src/extractors.py 169-278)

The network periphery of `extract_invoice_with_ai` (image rendering,
HTTP call) is abstracted; from the model's raw text onward every step is
embedded.  `now` stands for `datetime.now().strftime('%Y-%m-%d')`. -/

/-- `"vendor_name"\s*:\s*"([^"]*)"`. -/
def vendorNamePat : RE :=
  rseq [rstr "\"vendor_name\"", wsStar, rchar ':', wsStar, rchar '"',
        .group 1 (.star true (.cls notQuoteP)), rchar '"']

/-- `"invoice_date"\s*:\s*"([^"]*)"`. -/
def invoiceDatePat : RE :=
  rseq [rstr "\"invoice_date\"", wsStar, rchar ':', wsStar, rchar '"',
        .group 1 (.star true (.cls notQuoteP)), rchar '"']

/-- `"key"\s*:\s*"[^"]*"` (string-valued field inside the item pattern). -/
def jsonStrField (key : String) : RE :=
  rseq [rchar '"', rstr key, rchar '"', wsStar, rchar ':', wsStar,
        rchar '"', .star true (.cls notQuoteP), rchar '"']

/-- `"key"\s*:\s*[\d.]+` (numeric field inside the item pattern). -/
def jsonNumField (key : String) : RE :=
  rseq [rchar '"', rstr key, rchar '"', wsStar, rchar ':', wsStar,
        rplus true (.cls digitDotP)]

/-- The stage-(b) structural item pattern from src/extractors.py line 203:
a complete object with fields `date`, `item_name`, `quantity`, `unit`,
`unit_price`, `amount` in exactly that order, string values without
escapes, numerics drawn from `[\d.]+`. -/
def itemPat : RE :=
  rseq [.lit [lbrace], wsStar, jsonStrField "date", wsStar, rchar ',', wsStar,
        jsonStrField "item_name", wsStar, rchar ',', wsStar,
        jsonNumField "quantity", wsStar, rchar ',', wsStar,
        jsonStrField "unit", wsStar, rchar ',', wsStar,
        jsonNumField "unit_price", wsStar, rchar ',', wsStar,
        jsonNumField "amount", wsStar, .lit [rbrace]]

/-- The markdown code-fence stripping of lines 173-175:
`re.sub(r'^```(?:json)?\s*', '', ·)` then `re.sub(r'\s*```$', '', ·)`,
applied when the content starts with a fence. -/
def stripFences (content : List Char) : List Char :=
  if startsWithL "```".data content then
    let afterTicks := content.drop 3
    let afterJson :=
      if startsWithL "json".data afterTicks then afterTicks.drop 4
      else afterTicks
    let c1 := afterJson.dropWhile isWs
    let r := c1.reverse
    let nl : List Char := if r.headD ' ' = '\n' then ['\n'] else []
    let r0 := if r.headD ' ' = '\n' then r.drop 1 else r
    if startsWithL "```".data r0 then
      ((r0.drop 3).dropWhile isWs).reverse ++ nl
    else c1
  else content

/-- Greatest index `i` with `sub` a prefix of `l.drop i` (Python `rfind`). -/
def rfindSub (l sub : List Char) : Option Nat :=
  match l with
  | [] => if sub.isEmpty then some 0 else none
  | _ :: rest =>
    match rfindSub rest sub with
    | some j => some (j + 1)
    | none => if startsWithL sub l then some 0 else none

/-- Repair stage (b) (lines 187-224): extract `vendor_name` and
`invoice_date` by field regexes, collect every match of the structural
item pattern that parses as JSON, and rebuild the document when at least
one item was found. -/
def repairStageB (now : String) (content : List Char) : Option Json :=
  let vendor_name_extracted : String :=
    match reSearchL vendorNamePat content with
    | some (_, _, caps) => ⟨capGet caps 1⟩
    | none => "Unknown Vendor"
  let invoice_date_extracted : String :=
    match reSearchL invoiceDatePat content with
    | some (_, _, caps) => ⟨capGet caps 1⟩
    | none => now
  let items := (reFindAll itemPat content).filterMap fun m => json_loads ⟨m.1⟩
  if items.isEmpty then none
  else
    some (.obj [("vendor_name", .str vendor_name_extracted),
                ("invoice_date", .str invoice_date_extracted),
                ("items", .arr items)])

/-- Repair stage (c) (lines 227-241): close the JSON after the last
`"},"` (ignored when that occurrence starts at index 0) by appending
`"]}"`, then parse. -/
def repairStageC (content : List Char) : Option Json :=
  match rfindSub content [rbrace, ','] with
  | some last_complete =>
    if last_complete > 0 then
      json_loads ⟨content.take (last_complete + 1) ++ [']', rbrace]⟩
    else none
  | none => none

/-- The three-stage repair ladder: direct parse, else stage (b), else
stage (c). -/
def parseLadder (now : String) (content : List Char) : Option Json :=
  match json_loads ⟨content⟩ with
  | some d => some d
  | none =>
    match repairStageB now content with
    | some d => some d
    | none => repairStageC content

/-- One item of the conversion loop (lines 260-275).  Outer `none`:
`item.get` on a non-object raises `AttributeError`, which the per-item
`except (ValueError, TypeError)` does not catch, so it aborts the whole
extraction.  `some none`: a float conversion failed, the item is
skipped.  -/
def aiItemToRecord (vendor_name invoice_date : String) (item : Json) :
    Option (Option Record) :=
  match item with
  | .obj _ =>
    let item_date := jGet item "date" (.str invoice_date)
    match pyFloatJson (jGet item "quantity" (.num 0)),
          pyFloatJson (jGet item "unit_price" (.num 0)),
          pyFloatJson (jGet item "amount" (.num 0)) with
    | some q, some up, some am =>
      some (some { vendor := vendor_name, date := jAsPyStr item_date,
                   item_name := jAsPyStr (jGet item "item_name" (.str "")),
                   quantity := q, unit := jAsPyStr (jGet item "unit" (.str "pc")),
                   unit_price := up, amount := am })
    | _, _, _ => some none
  | _ => none

def aiItemsLoop (vendor_name invoice_date : String) :
    List Json → Option (List Record)
  | [] => some []
  | item :: rest =>
    match aiItemToRecord vendor_name invoice_date item with
    | none => none
    | some none => aiItemsLoop vendor_name invoice_date rest
    | some (some r) =>
      match aiItemsLoop vendor_name invoice_date rest with
      | some rs => some (r :: rs)
      | none => none

/-- Record conversion from the parsed document (lines 249-277); `none`
models an uncaught exception that the function-level handler turns into
an empty result. -/
def aiRecordsOfData (now : String) (data : Json) : Option (List Record) :=
  match data with
  | .obj _ =>
    let vendor_name :=
      get_clean_vendor_name (jAsPyStr (jGet data "vendor_name" (.str "Unknown Vendor")))
    let invoice_date := jAsPyStr (jGet data "invoice_date" (.str now))
    match jGet data "items" (.arr []) with
    | .arr items => aiItemsLoop vendor_name invoice_date items
    | .str s => if s = "" then some [] else none
    | _ => none
  | _ => none

/-- The AI response processing from the model's raw text to the record
list (lines 169-278): strip, remove code fences, run the repair ladder,
convert items; every failure path yields the empty list. -/
def processResponseContent (now : String) (raw : String) : List Record :=
  let content := stripFences (stripL raw.data)
  match parseLadder now content with
  | none => []
  | some data => (aiRecordsOfData now data).getD []

/-! ## Spreadsheet cells and the Excel row parsers
(src/extractors.py 559-809)

A pandas cell is `na`, a number, a string, or a datetime (carried as its
`strftime('%Y-%m-%d')` rendering). -/

inductive Cell where
  | na
  | num (q : ℚ)
  | str (s : String)
  | date (iso : String)
  deriving DecidableEq, Repr

/-- `pd.notna`. -/
def Cell.notna : Cell → Bool
  | .na => false
  | _ => true

/-- Python `str(cell)` (`nan` for missing values; the numeric rendering is
loose and off the exercised paths). -/
def Cell.pyStr : Cell → String
  | .na => "nan"
  | .num q => toString q
  | .str s => s
  | .date iso => iso

/-- Python `float(cell)`; `none` models `ValueError`/`TypeError`. -/
def Cell.float : Cell → Option ℚ
  | .num q => some q
  | .str s =>
    match jNumber (stripL s.data) with
    | some (q, rest) => if rest.isEmpty then some q else none
    | _ => none
  | _ => none

/-- Python `cell == 0`: only numeric values compare equal to `0`. -/
def Cell.eqZero : Cell → Bool
  | .num q => q = 0
  | _ => false

/-- Is the cell a (pandas) string? -/
def Cell.isStr : Cell → Bool
  | .str _ => true
  | _ => false

/-- `row[col] if pd.notna(row[col]) else 0`. -/
def orZero (c : Cell) : Cell := if c.notna then c else .num 0

/-- `str(row[col]) if pd.notna(row[col]) else d`. -/
def cellStrOr (d : String) (c : Cell) : String :=
  if c.notna then c.pyStr else d

/-- `cellStrOr` for an optional column. -/
def optCellStrOr (d : String) : Option Cell → String
  | some c => cellStrOr d c
  | none => d

/-- `float(row[col]) if pd.notna(row[col]) else 0`. -/
def cellFloatOrZero (c : Cell) : Option ℚ :=
  if c.notna then c.float else some 0

/-- `float(row[col]) if col present and pd.notna(row[col]) else d`. -/
def optCellFloatOr (d : ℚ) : Option Cell → Option ℚ
  | some c => if c.notna then c.float else some d
  | none => some d

/-- `unit if unit != 'nan' else 'pc'` over an optional unit column. -/
def unitOrPc (oc : Option Cell) : String :=
  let u := optCellStrOr "pc" oc
  if u = "nan" then "pc" else u

/-- `str(cell)[:10]` / `strftime` for the date columns. -/
def cellDateStr : Cell → Option String
  | .date iso => some iso
  | .num q => some ⟨(Cell.pyStr (.num q)).data.take 10⟩
  | .str s => some ⟨s.data.take 10⟩
  | .na => none

/-! ### Manmatsu -/

/-- `(jan|feb|…|dec)[_\s]*(\d{4})` with `re.I` (filename date fallback). -/
def monthFilePat : RE :=
  rseq [.group 1 (raltL [rstrCI "jan", rstrCI "feb", rstrCI "mar",
          rstrCI "apr", rstrCI "may", rstrCI "jun", rstrCI "jul",
          rstrCI "aug", rstrCI "sep", rstrCI "oct", rstrCI "nov",
          rstrCI "dec"]),
        .star true (.cls underscoreWsP), .group 2 (repN 4 (.cls digitP))]

def month_map : List (String × String) :=
  [("jan", "01"), ("feb", "02"), ("mar", "03"), ("apr", "04"), ("may", "05"),
   ("jun", "06"), ("jul", "07"), ("aug", "08"), ("sep", "09"), ("oct", "10"),
   ("nov", "11"), ("dec", "12")]

/-- Filename-based date fallback (lines 622-633); `nowMonth` stands for
`datetime.now().strftime('%Y-%m-01')`. -/
def manmatsuFilenameDate (filename nowMonth : String) : String :=
  match reSearchL monthFilePat filename.data with
  | some (_, _, caps) =>
    let month := match lookupAssoc month_map ⟨lowerL (capGet caps 1)⟩ with
                 | some m => m
                 | none => "01"
    ⟨capGet caps 2 ++ ('-' :: month.data) ++ "-01".data⟩
  | none => nowMonth

/-- One Manmatsu sheet row: cells of the detected columns, `none` for an
absent optional column (the column-name → role scan of lines 568-590 is
abstracted; `item`, `qty`, `amount` presence is checked there before any
row is processed). -/
structure MRow where
  item : Cell
  qty : Cell
  amount : Cell
  unit : Option Cell
  unit_price : Option Cell
  date : Option Cell
  deriving DecidableEq, Repr

/-- The date logic of the Manmatsu row loop (lines 611-633). -/
def manmatsuDateStr (filename nowMonth : String) (row : MRow) : String :=
  let fromCol : Option String :=
    match row.date with
    | some c => if c.notna then cellDateStr c else none
    | none => none
  match fromCol with
  | some d => if d = "" then manmatsuFilenameDate filename nowMonth else d
  | none => manmatsuFilenameDate filename nowMonth

/-- The body of the Manmatsu row loop (lines 592-647); `none` models
`continue` (both explicit skips and the `except` handler). -/
def manmatsuRow (filename nowMonth : String) (row : MRow) : Option Record :=
  let item_name := cellStrOr "" row.item
  if item_name = "" || item_name = "nan" || (pyStrip item_name).data.length < 2
  then none
  else
    match cellFloatOrZero row.qty, cellFloatOrZero row.amount with
    | some qty, some amount =>
      if qty = 0 || amount = 0 then none
      else
        match optCellFloatOr (if qty > 0 then amount / qty else 0)
            row.unit_price with
        | some unit_price =>
          some { vendor := "万松青果株式会社 (Manmatsu)",
                 date := manmatsuDateStr filename nowMonth row,
                 item_name := pyStrip item_name, quantity := qty,
                 unit := unitOrPc row.unit, unit_price := unit_price,
                 amount := amount }
        | none => none
    | _, _ => none

/-- The row loop of `parse_manmatsu_excel` (src/extractors.py 559-650). -/
def parse_manmatsu_rows (filename nowMonth : String) (rows : List MRow) :
    List Record :=
  rows.filterMap (manmatsuRow filename nowMonth)

/-! ### French F&B Excel -/

/-- One French F&B sheet row: the hardcoded columns 15, 30-35. -/
structure FRow where
  date_val : Cell
  product : Cell
  spec : Cell
  price : Cell
  qty : Cell
  unit : Cell
  amount : Cell
  deriving DecidableEq, Repr

/-- `date_val.strftime('%Y-%m-%d')` or `str(date_val)[:10]` (lines
682-685). -/
def frenchDateStr : Cell → String
  | .date iso => iso
  | c => ⟨c.pyStr.data.take 10⟩

/-- Lines 700-704: nan-defaulted unit, overridden from the spec column. -/
def frenchUnitStr (spec unit : String) : String :=
  if containsSub spec "100g" then "100g"
  else if containsSub (pyLower spec) "kg" then "kg"
  else if unit ≠ "nan" then unit else "pc"

/-- The body of the French F&B Excel row loop (lines 674-717).  Note the
`qty == 0 or amount == 0` filter compares the raw cell values before any
float conversion. -/
def frenchFnbExcelRow (row : FRow) : Option Record :=
  if !row.date_val.notna then none
  else
    let product_name := cellStrOr "" row.product
    if product_name = "" || product_name = "nan" then none
    else if (orZero row.qty).eqZero || (orZero row.amount).eqZero then none
    else
      match (orZero row.qty).float, (orZero row.price).float,
          (orZero row.amount).float with
      | some q, some up, some am =>
        some { vendor := fnbVendor, date := frenchDateStr row.date_val,
               item_name := pyStrip product_name, quantity := q,
               unit := frenchUnitStr (cellStrOr "" row.spec)
                 (cellStrOr "pc" row.unit),
               unit_price := up, amount := am }
      | _, _, _ => none

/-- The row loop of `parse_french_fnb_excel` (src/extractors.py 653-724). -/
def parse_french_fnb_excel_rows (rows : List FRow) : List Record :=
  rows.filterMap frenchFnbExcelRow

/-! ### Generic Excel -/

def replaceSubL (needle repl : List Char) : Nat → List Char → List Char
  | 0, l => l
  | fuel + 1, l =>
    match l with
    | [] => []
    | c :: rest =>
      if !needle.isEmpty && startsWithL needle l then
        repl ++ replaceSubL needle repl fuel (l.drop needle.length)
      else c :: replaceSubL needle repl fuel rest

/-- Python `str.replace` (all occurrences, left to right). -/
def pyReplace (s needle repl : String) : String :=
  ⟨replaceSubL needle.data repl.data (s.data.length + 1) s.data⟩

def titleAux : List Char → Bool → List Char
  | [], _ => []
  | c :: rest, prevAlpha =>
    let c' := if c.isAlpha then (if prevAlpha then lowChar c else upChar c) else c
    c' :: titleAux rest c.isAlpha

/-- Python `str.title` (ASCII model). -/
def pyTitle (s : String) : String := ⟨titleAux s.data false⟩

/-- `filename.replace('.xlsx','').replace('.xls','').replace('_',' ').title()`. -/
def genericVendorName (filename : String) : String :=
  pyTitle (pyReplace (pyReplace (pyReplace filename ".xlsx" "") ".xls" "") "_" " ")

/-- One generic sheet row (auto-detected columns; `none` = column absent). -/
structure GRow where
  item : Cell
  qty : Option Cell
  amount : Option Cell
  unit : Option Cell
  unit_price : Option Cell
  date : Option Cell
  deriving DecidableEq, Repr

/-- The date logic of the generic row loop (lines 789-793). -/
def genericDateStr (nowMonth : String) (row : GRow) : String :=
  match row.date with
  | some c =>
    if c.notna then
      match c with
      | .date iso => iso
      | _ => nowMonth
    else nowMonth
  | none => nowMonth

/-- The body of the generic Excel row loop (lines 774-806). -/
def genericRow (vendor nowMonth : String) (row : GRow) : Option Record :=
  let item_name := cellStrOr "" row.item
  if item_name = "" || item_name = "nan" then none
  else
    match optCellFloatOr 1 row.qty, optCellFloatOr 0 row.amount with
    | some qty, some amount =>
      if amount = 0 then none
      else
        match optCellFloatOr (if qty > 0 then amount / qty else 0)
            row.unit_price with
        | some unit_price =>
          some { vendor := vendor, date := genericDateStr nowMonth row,
                 item_name := pyStrip item_name, quantity := qty,
                 unit := unitOrPc row.unit, unit_price := unit_price,
                 amount := amount }
        | none => none
    | _, _ => none

/-- The row loop of `parse_generic_excel` (src/extractors.py 727-809). -/
def parse_generic_rows (filename nowMonth : String) (rows : List GRow) :
    List Record :=
  rows.filterMap (genericRow (genericVendorName filename) nowMonth)

/-! ## Vendor detection (src/extractors.py 320-354, vendors.py) -/

/-- `vendors.VENDOR_PATTERNS` in literal order:
(vendor name, detection patterns, extractor). -/
def VENDOR_PATTERNS : List (String × List String × String) :=
  [("Meat Shop Hirayama", ["ミートショップひら山", "ひら山", "hirayama"],
    "hirayama"),
   ("Maruyata", ["丸弥太", "maruyata"], "maruyata"),
   ("French F&B Japan",
    ["フレンチ・エフ・アンド・ビー", "french f&b", "french fnb", "french_fnb"],
    "french_fnb"),
   ("Asami Suisan", ["浅見水産", "asami"], "ai"),
   ("Gibier Imai", ["洛北ジビエ", "イマイ", "gibier", "imai"], "ai"),
   ("Cheese Kobo", ["新利根チーズ", "cheese kobo"], "ai"),
   ("Takanashi", ["タカナシ", "takanashi"], "ai"),
   ("Pomona Farm", ["ポモナ", "pomona"], "ai"),
   ("Minato", ["ミナト", "minato"], "ai"),
   ("Ginkakuji Onishi", ["銀閣寺大西", "ginkakuji", "onishi"], "ai")]

/-- Does one table entry match: some lower-cased pattern occurs in the
combined lower-cased filename+text? -/
def vendorEntryMatches (combined : String) (e : String × List String × String) :
    Bool :=
  e.2.1.any (fun p => containsSub combined (pyLower p))

def detectVendorAux (combined : String) :
    List (String × List String × String) → Option String
  | [] => none
  | e :: rest =>
    if vendorEntryMatches combined e then some e.1
    else detectVendorAux combined rest

/-- `detect_vendor(filename, text_content)` (src/extractors.py 320-338):
iterate the table, return the first vendor with a matching pattern. -/
def detect_vendor (filename text_content : String) : Option String :=
  detectVendorAux (pyLower (filename ++ " " ++ text_content)) VENDOR_PATTERNS

/-- Modelled from the spec (§4.2): the first vendor in fixed table order
one of whose detection substrings appears in the lower-cased
concatenation of filename and text, and no vendor otherwise. -/
def detect_vendor_spec (filename text_content : String) : Option String :=
  (VENDOR_PATTERNS.find?
    (vendorEntryMatches (pyLower (filename ++ " " ++ text_content)))).map (·.1)

/-- `get_vendor_extractor` (src/extractors.py 341-354). -/
def get_vendor_extractor (vendor_name : String) : String :=
  match VENDOR_PATTERNS.find? (fun e => e.1 = vendor_name) with
  | some e => e.2.2
  | none => "ai"

/-! ## The top-level extraction pipeline (src/extractors.py 360-485)

External effects are abstracted as an environment carrying each
operation's outcome; `Except` models Python exceptions, and the `do`
blocks below propagate them exactly where the source has no handler. -/

inductive PageRead where
  | ok (t : Option String)
  | fail
  deriving DecidableEq, Repr

/-- The page loop (lines 403-409): page texts are concatenated with
newlines, a page with no text contributes nothing, and a raising page
ends the loop with the text accumulated so far (the `except` handler
sits outside the `for`). -/
def extractPagesText : List PageRead → String → String
  | [], acc => acc
  | PageRead.fail :: _, acc => acc
  | PageRead.ok none :: ps, acc => extractPagesText ps acc
  | PageRead.ok (some t) :: ps, acc => extractPagesText ps (acc ++ t ++ "\n")

/-- The pdfplumber block (lines 398-412): a failing `open` leaves the
text empty. -/
def extractPdfTextContent (pdfOpen : Except String (List PageRead)) : String :=
  match pdfOpen with
  | .error _ => ""
  | .ok pages => extractPagesText pages ""

structure PdfEnv where
  readBytes : Except String Nat
  tmpWrite : Except String Unit
  pdfplumberAvailable : Bool
  pdfOpen : Except String (List PageRead)
  apiKey : Option String
  pdf2imageAvailable : Bool
  requestsAvailable : Bool
  aiInner : Except String (List Record)
  unlink : Except String Unit

structure ExcelEnv where
  inner : Except String (List Record)

structure UploadedFileModel where
  name : String
  pdf : PdfEnv
  excel : ExcelEnv

inductive TraceEv where
  | excelBranch
  | regexParse (extractor : String)
  | visionFallback
  deriving DecidableEq, Repr

structure SessionOut where
  records : List Record
  trace : List TraceEv
  textContent : String
  isScanned : Bool
  vendor : Option String
  deriving DecidableEq, Repr

/-- `extract_invoice_with_ai` at the pipeline level: the availability
guards of lines 91-102 around the fully try-guarded body (abstracted as
the `aiInner` outcome; every exception there yields `[]`). -/
def ai_extraction_result (env : PdfEnv) : List Record :=
  if env.apiKey.isNone then []
  else if !env.pdf2imageAvailable then []
  else if !env.requestsAvailable then []
  else
    match env.aiInner with
    | .ok l => l
    | .error _ => []

/-- `extract_invoice_from_excel` (491-556): sheet loading, format
detection and dispatch to the row parsers happen inside one `try` whose
handler returns `[]`; the body is abstracted as the `inner` outcome. -/
def extract_invoice_from_excel (env : ExcelEnv) : List Record :=
  match env.inner with
  | .ok l => l
  | .error _ => []

/-- The PDF branch of `extract_invoice_data` (lines 380-479), inside its
`try`.  The returned session records the trace events relevant to the
escalation order. -/
def pdfBranchBody (filename : String) (env : PdfEnv) :
    Except String SessionOut :=
  match env.readBytes with
  | .error e => .error e
  | .ok _ =>
    match env.tmpWrite with
    | .error e => .error e
    | .ok _ =>
      let text_content :=
        if env.pdfplumberAvailable then extractPdfTextContent env.pdfOpen
        else ""
      let is_scanned := decide ((pyStrip text_content).data.length < 100)
      let vendor_detected := detect_vendor filename text_content
      let step1 : List Record × List TraceEv :=
        if vendor_detected.isSome && !is_scanned && text_content != "" then
          let extractor := get_vendor_extractor (vendor_detected.getD "")
          if extractor = "hirayama" then
            (parse_hirayama_invoice text_content, [.regexParse "hirayama"])
          else if extractor = "french_fnb" then
            (parse_french_fnb_invoice text_content, [.regexParse "french_fnb"])
          else if extractor = "maruyata" then
            (parse_maruyata_invoice text_content, [.regexParse "maruyata"])
          else ([], [])
        else ([], [])
      let step2 : List Record × List TraceEv :=
        if step1.1.isEmpty then
          (ai_extraction_result env, step1.2 ++ [.visionFallback])
        else step1
      let _unlinkOutcome := env.unlink
      .ok { records := step2.1, trace := step2.2, textContent := text_content,
            isScanned := is_scanned, vendor := vendor_detected }

/-- `extract_invoice_data` (src/extractors.py 360-485): Excel files go to
the spreadsheet extractor, PDFs run the branch above inside a `try`
whose handler returns the empty record list. -/
def extract_invoice_data (file : UploadedFileModel) : Except String SessionOut :=
  let filename := pyLower file.name
  if endsWith filename ".xlsx" || endsWith filename ".xls" then
    .ok { records := extract_invoice_from_excel file.excel,
          trace := [.excelBranch], textContent := "", isScanned := false,
          vendor := none }
  else
    match pdfBranchBody filename file.pdf with
    | .ok out => .ok out
    | .error _ =>
      .ok { records := [], trace := [], textContent := "", isScanned := false,
            vendor := none }

/-! ## Candidate streams and deduplication

Each regex parser is a single fold over lines carrying a current date, a
key set and the records.  For the dedup and carry-forward theorems the
same computation is re-expressed as a stream of keyed candidates fed
through one deduplication pass; the equivalence is proved below. -/

/-- First-wins deduplication of a keyed candidate stream against an
initial key set (the per-parse `processed` set). -/
def dedupKeyed {κ α : Type} [DecidableEq κ] (seen : List κ) :
    List (κ × α) → List (κ × α)
  | [] => []
  | (k, a) :: rest =>
    if k ∈ seen then dedupKeyed seen rest
    else (k, a) :: dedupKeyed (k :: seen) rest

/-- Keyed candidates of the Hirayama parser, one per matching line, with
the carried date threaded through. -/
def hCands (cur : String) : List (List Char) → List (HKey × Record)
  | [] => []
  | l :: ls =>
    let cur' := match dateTokOf l with
                | some d => d
                | none => cur
    ((hEmit l cur').map fun r => (hKey r, r)).toList ++ hCands cur' ls

/-- Final carried date of the Hirayama line loop. -/
def hCurF (cur : String) (ls : List (List Char)) : String :=
  ls.foldl (fun c l =>
    match dateTokOf l with
    | some d => d
    | none => c) cur

/-- The kept keyed candidates of one Hirayama parse. -/
def hKept (text : String) : List (HKey × Record) :=
  dedupKeyed []
    (hCands (ymFallbackDate text.data)
      (splitOnCharL '\n' (replaceCharL '|' ' ' text.data)))

/-- Keyed candidates of one French F&B line (caviar first, then butter,
sharing the key set). -/
def fnbLineCands (date : String) (l : List Char) : List (FnbKey × Record) :=
  (fnbCaviarEmit date l).toList ++ (fnbButterEmit date l).toList

def fnbCands (date : String) (ls : List (List Char)) : List (FnbKey × Record) :=
  ls.flatMap (fnbLineCands date)

/-- The kept keyed candidates of one French F&B parse. -/
def fKept (text : String) : List (FnbKey × Record) :=
  dedupKeyed []
    (fnbCands (ymFallbackDate text.data) (splitOnCharL '\n' text.data))

/-- Keyed candidates of the Maruyata parser: skip lines are dropped, the
carried date starts absent, and a line only emits once a date exists. -/
def mCands (cur : Option String) : List (List Char) → List (MKey × Record)
  | [] => []
  | l :: ls =>
    let line := stripL l
    if mSkipLine line then mCands cur ls
    else
      let cur' := match dateTokOf line with
                  | some d => some d
                  | none => cur
      (match cur' with
       | some c => (mEmit line c).toList
       | none => []) ++ mCands cur' ls

/-- Final carried date of the Maruyata line loop. -/
def mCurF (cur : Option String) (ls : List (List Char)) : Option String :=
  ls.foldl (fun c l =>
    let line := stripL l
    if mSkipLine line then c
    else
      match dateTokOf line with
      | some d => some d
      | none => c) cur

/-- The kept keyed candidates of one Maruyata parse. -/
def mKept (text : String) : List (MKey × Record) :=
  dedupKeyed [] (mCands none (splitOnCharL '\n' text.data))

/-! ## Spec-side carry-forward formulations (for the date-inheritance
claim) -/

/-- The last date token produced by `tok` in a list of lines. -/
def lastDateTok (tok : List Char → Option String) :
    List (List Char) → Option String
  | [] => none
  | l :: ls =>
    match lastDateTok tok ls with
    | some d => some d
    | none => tok l

/-- Modelled from the spec (§4.3): the date the Hirayama parser assigns
to line `i` is the most recently seen date token among lines `0..i`,
with the document-level header date as fallback. -/
def hSpecDate (fallback : String) (lines : List (List Char)) (i : Nat) : String :=
  match lastDateTok dateTokOf (lines.take (i + 1)) with
  | some d => d
  | none => fallback

/-- Modelled from the spec (§4.3), per-line prefix formulation of the
Hirayama candidate stream: line `i` emits with `hSpecDate fallback lines i`. -/
def hSpecCands (fallback : String) (lines : List (List Char)) :
    List (HKey × Record) :=
  (List.range lines.length).flatMap fun i =>
    ((hEmit (lines.getD i []) (hSpecDate fallback lines i)).map
      fun r => (hKey r, r)).toList

/-- Date tokens as the Maruyata loop sees them: skip lines yield none,
other lines are stripped first. -/
def mTok (l : List Char) : Option String :=
  if mSkipLine (stripL l) then none else dateTokOf (stripL l)

/-- The date available at line `i` of a Maruyata parse: the most recent
date token among lines `0..i`, else the generalised initial date `cur`
(`none` at the top level — there is no header fallback). -/
def mSpecDate (cur : Option String) (lines : List (List Char)) (i : Nat) :
    Option String :=
  match lastDateTok mTok (lines.take (i + 1)) with
  | some d => some d
  | none => cur

/-- Per-line prefix formulation of the Maruyata candidate stream: line
`i` emits only when it is not skipped and a date is available. -/
def mSpecCands (cur : Option String) (lines : List (List Char)) :
    List (MKey × Record) :=
  (List.range lines.length).flatMap fun i =>
    let l := lines.getD i []
    if mSkipLine (stripL l) then []
    else
      match mSpecDate cur lines i with
      | some c => (mEmit (stripL l) c).toList
      | none => []

/-! ## Concrete inputs for the counterexample and witness theorems -/

/-- A well-formed model response whose single item has zero quantity and
zero amount. -/
def zeroItemResponse : String :=
  "\x7b\"vendor_name\": \"V\", \"invoice_date\": \"2025-10-01\", \"items\": [\x7b\"date\": \"2025-10-01\", \"item_name\": \"x\", \"quantity\": 0, \"unit\": \"pc\", \"unit_price\": 0, \"amount\": 0\x7d]\x7d"

/-- Two syntactically complete item objects (the second with a negative
amount, a credit line) — shared prefix of the truncated and the closed
variants below. -/
def twoItemsPrefix : String :=
  "\x7b\"vendor_name\": \"V\", \"invoice_date\": \"D\", \"items\": [\x7b\"date\": \"d\", \"item_name\": \"a\", \"quantity\": 1, \"unit\": \"p\", \"unit_price\": 1, \"amount\": 1\x7d, \x7b\"date\": \"d\", \"item_name\": \"b\", \"quantity\": 1, \"unit\": \"p\", \"unit_price\": 1, \"amount\": -1\x7d"

/-- The response truncated mid-array after the two complete items, with
one partial trailing object. -/
def truncatedResponse : String := twoItemsPrefix ++ ", \x7b\"date\": \"d"

/-- The same two complete items, properly closed (evidence that the
truncated response contains exactly two complete item objects). -/
def closedResponse : String := twoItemsPrefix ++ "]\x7d"

/-- Number of entries under the `items` key of a parsed document. -/
def countItems (j : Json) : Nat :=
  match jGet j "items" (.arr []) with
  | .arr xs => xs.length
  | _ => 0

/-- Maruyata invoice text with a header date but a product line before
any per-line date token. -/
def maruyataNoDateText : String := "2025年10月\nサーモン 1.5 kg 1,000 1,500"

/-- The same product line preceded by a date token line. -/
def maruyataWithDateText : String :=
  "2025年10月\n25/10/03\nサーモン 1.5 kg 1,000 1,500"

/-- A scanned-looking PDF: one page whose text layer is 100 spaces, so
the extracted text (101 characters with the appended newline) is long
but all whitespace. -/
def whitespacePdfEnv : PdfEnv :=
  { readBytes := .ok 10, tmpWrite := .ok (), pdfplumberAvailable := true,
    pdfOpen := .ok [PageRead.ok (some ⟨List.replicate 100 ' '⟩)],
    apiKey := none, pdf2imageAvailable := true, requestsAvailable := true,
    aiInner := .ok [], unlink := .ok () }

/-- A Hirayama-named PDF whose text layer is short (flagged scanned). -/
def hirayamaScanFile : UploadedFileModel :=
  { name := "Hirayama.pdf",
    pdf := { readBytes := .ok 10, tmpWrite := .ok (),
             pdfplumberAvailable := true,
             pdfOpen := .ok [PageRead.ok (some "short")],
             apiKey := none, pdf2imageAvailable := true,
             requestsAvailable := true, aiInner := .ok [],
             unlink := .ok () },
    excel := { inner := .ok [] } }

/-- An environment with no text layer at all (for the C6 witness). -/
def noTextPdfEnv : PdfEnv :=
  { readBytes := .ok 10, tmpWrite := .ok (), pdfplumberAvailable := false,
    pdfOpen := .ok [], apiKey := none, pdf2imageAvailable := true,
    requestsAvailable := true, aiInner := .ok [], unlink := .ok () }

/-- The session the pipeline produces for `hirayamaScanFile`. -/
def hirayamaScanOut : SessionOut :=
  { records := [], trace := [TraceEv.visionFallback], textContent := "short\n",
    isScanned := true, vendor := some "Meat Shop Hirayama" }

/-- The session the pipeline produces for `whitespacePdfEnv`. -/
def whitespaceOut : SessionOut :=
  { records := [], trace := [TraceEv.visionFallback],
    textContent := ⟨List.replicate 100 ' ' ++ ['\n']⟩,
    isScanned := true, vendor := none }

/-- The session the pipeline produces for `noTextPdfEnv`. -/
def noTextOut : SessionOut :=
  { records := [], trace := [TraceEv.visionFallback], textContent := "",
    isScanned := true, vendor := none }

/-- A Manmatsu row with numeric quantity and amount (C1 witness). -/
def manmatsuWitnessRow : MRow :=
  { item := .str "トマト", qty := .num 3, amount := .num 1200,
    unit := some (.str "箱"), unit_price := some (.num 400),
    date := some (.date "2025-10-05") }

/-- A French F&B Excel row with numeric cells (C1 witness). -/
def frenchWitnessRow : FRow :=
  { date_val := .date "2025-10-05", product := .str "KAVIARI",
    spec := .str "100g", price := .num 19500, qty := .num 2,
    unit := .str "缶", amount := .num 39000 }

/-! ## Theorems -/

/-! ### String-normalisation lemmas -/

theorem lowChar_lowChar (c : Char) : lowChar (lowChar c) = lowChar c := by
  unfold lowChar
  cases hf : lowPairs.find? (fun p => p.1 = c) with
  | none => rw [hf]
  | some p =>
    have hp : p ∈ lowPairs := List.mem_of_find?_eq_some hf
    have hnone : lowPairs.find? (fun q => q.1 = p.2) = none := by
      rw [List.find?_eq_none]
      intro q hq
      have : ∀ q ∈ lowPairs, ∀ r ∈ lowPairs, ¬(q.1 = r.2) := by decide
      simpa using this q hq p hp
    rw [hnone]

theorem isWs_lowChar (c : Char) : isWs (lowChar c) = isWs c := by
  unfold lowChar
  cases hf : lowPairs.find? (fun p => p.1 = c) with
  | none => rfl
  | some p =>
    have hp : p ∈ lowPairs := List.mem_of_find?_eq_some hf
    have hc : p.1 = c := by simpa using List.find?_some hf
    have hfacts : ∀ q ∈ lowPairs, isWs q.1 = false ∧ isWs q.2 = false := by decide
    rw [(hfacts p hp).2, ← hc, (hfacts p hp).1]

theorem lowerL_lowerL (l : List Char) : lowerL (lowerL l) = lowerL l := by
  simp only [lowerL, List.map_map]
  exact List.map_congr_left fun c _ => lowChar_lowChar c

theorem dropWhile_isWs_idem (l : List Char) :
    (l.dropWhile isWs).dropWhile isWs = l.dropWhile isWs := by
  induction l with
  | nil => rfl
  | cons c t ih =>
    by_cases h : isWs c
    · simpa [List.dropWhile, h] using ih
    · simp [List.dropWhile, h]

theorem dropWhile_head_false {l m : List Char} {c : Char}
    (h : l.dropWhile isWs = c :: m) : isWs c = false := by
  induction l with
  | nil => simp [List.dropWhile] at h
  | cons a t ih =>
    by_cases ha : isWs a
    · exact ih (by simpa [List.dropWhile, ha] using h)
    · rw [List.dropWhile_cons, if_neg (by simpa using ha)] at h
      cases h
      simpa using ha

/-- Trailing-whitespace trimming. -/
def dropRightWs (l : List Char) : List Char :=
  (l.reverse.dropWhile isWs).reverse

theorem dropRightWs_idem (l : List Char) :
    dropRightWs (dropRightWs l) = dropRightWs l := by
  simp [dropRightWs, dropWhile_isWs_idem]

theorem stripL_eq (l : List Char) : stripL l = dropRightWs (l.dropWhile isWs) := rfl

theorem dropRightWs_prefix (l : List Char) : dropRightWs l <+: l := by
  have h : l.reverse.dropWhile isWs <:+ l.reverse := List.dropWhile_suffix _
  have h2 : (dropRightWs l).reverse <:+ l.reverse := by
    simpa [dropRightWs] using h
  exact List.reverse_suffix.mp h2

theorem stripL_head_false {l m : List Char} {c : Char}
    (h : stripL l = c :: m) : isWs c = false := by
  rw [stripL_eq] at h
  obtain ⟨t, ht⟩ := dropRightWs_prefix (l.dropWhile isWs)
  rw [h] at ht
  exact dropWhile_head_false ht.symm

theorem stripL_idem (l : List Char) : stripL (stripL l) = stripL l := by
  have h1 : (stripL l).dropWhile isWs = stripL l := by
    cases hs : stripL l with
    | nil => rfl
    | cons c m => simp [List.dropWhile, stripL_head_false hs]
  calc stripL (stripL l) = dropRightWs ((stripL l).dropWhile isWs) := stripL_eq _
    _ = dropRightWs (stripL l) := by rw [h1]
    _ = dropRightWs (dropRightWs (l.dropWhile isWs)) := by rw [stripL_eq]
    _ = dropRightWs (l.dropWhile isWs) := dropRightWs_idem _
    _ = stripL l := (stripL_eq l).symm

theorem dropWhile_isWs_map_lowChar (l : List Char) :
    (l.map lowChar).dropWhile isWs = (l.dropWhile isWs).map lowChar := by
  induction l with
  | nil => rfl
  | cons c t ih =>
    by_cases h : isWs c
    · have h' : isWs (lowChar c) = true := by rw [isWs_lowChar]; exact h
      simpa [List.dropWhile, h, h'] using ih
    · have h' : isWs (lowChar c) = false := by rw [isWs_lowChar]; simpa using h
      simp [List.dropWhile, h, h']

theorem stripL_lowerL (l : List Char) : stripL (lowerL l) = lowerL (stripL l) := by
  simp only [stripL, lowerL]
  rw [dropWhile_isWs_map_lowChar, ← List.map_reverse, dropWhile_isWs_map_lowChar,
    ← List.map_reverse]

theorem lookupAssoc_mem {m : List (String × String)} {k v : String}
    (h : lookupAssoc m k = some v) : (k, v) ∈ m := by
  induction m with
  | nil => simp [lookupAssoc] at h
  | cons p t ih =>
    obtain ⟨a, b⟩ := p
    by_cases hk : k = a
    · subst hk
      simp only [lookupAssoc, if_pos rfl] at h
      cases h
      exact List.mem_cons_self _ _
    · simp only [lookupAssoc, if_neg hk] at h
      exact List.mem_cons_of_mem _ (ih h)

/-! ### Claim C5 -/

/-- C5: the grams conversion maps `kg` to ×1000, `100g` to ×100, `g` to ×1,
and every unit not normalising to a weight unit (containers such as `can`,
and genuinely unknown tokens) to quantity × the caller-supplied
default-grams-per-unit; in particular `n` cans at default 100 give `n * 100`
grams. -/
theorem grams_conversion_rules :
    (∀ n d : ℚ, convert_row n "kg" d = n * 1000) ∧
    (∀ n d : ℚ, convert_row n "100g" d = n * 100) ∧
    (∀ n d : ℚ, convert_row n "g" d = n) ∧
    (∀ (n d : ℚ) (u : String),
      normalize_unit u ∉ ["kg", "g", "100g"] → convert_row n u d = n * d) ∧
    (∀ n : ℚ, convert_row n "can" 100 = n * 100) := by
  refine ⟨fun n d => rfl, fun n d => rfl, fun n d => rfl, ?_, fun n => rfl⟩
  intro n d u h
  simp only [List.mem_cons, List.not_mem_nil, or_false, not_or] at h
  obtain ⟨h1, h2, h3⟩ := h
  unfold convert_row
  rw [if_neg h1, if_neg h2, if_neg h3]
  split <;> rfl

/-- Witness for C5: the unknown token `portion` is not a weight unit and is
converted with the supplied default. -/
theorem grams_conversion_rules_witness :
    normalize_unit "portion" ∉ ["kg", "g", "100g"] ∧
    convert_row 7 "portion" 100 = 7 * 100 :=
  ⟨by decide, grams_conversion_rules.2.2.2.1 7 100 "portion" (by decide)⟩

/-! ### Claim C10 -/

/-- C10 counterexample: `normalize_unit` is not idempotent.  On the
whitespace-only input `" "` it returns `""` (the stripped lower-cased
input, which misses the empty-string guard), and a second application
maps `""` to `"pc"`. -/
theorem normalize_unit_not_idempotent :
    normalize_unit (normalize_unit " ") ≠ normalize_unit " " := by decide

/-- C10 (amended): `normalize_unit` is idempotent on every unit string that
is empty or whose stripped form is non-empty; only nonempty all-whitespace
inputs (which normalise to `""`, not a fixed point since `"" ↦ "pc"`)
violate idempotence. -/
theorem normalize_unit_idempotent_amended :
    ∀ u : String, (u = "" ∨ pyStrip u ≠ "") →
      normalize_unit (normalize_unit u) = normalize_unit u := by
  intro u h
  rcases h with h | h
  · subst h; decide
  · have hu : u ≠ "" := by
      intro e; exact h (by simp [e, pyStrip, stripL, List.dropWhile])
    have hdata : stripL u.data ≠ [] := by
      intro e
      apply h
      show (⟨stripL u.data⟩ : String) = ⟨[]⟩
      rw [e]
    have hcore : normalize_unit u =
        (match lookupAssoc unit_map (⟨lowerL (stripL u.data)⟩ : String) with
         | some v => v
         | none => (⟨lowerL (stripL u.data)⟩ : String)) := by
      unfold normalize_unit
      rw [if_neg hu]
    cases hl : lookupAssoc unit_map (⟨lowerL (stripL u.data)⟩ : String) with
    | some v =>
      have h1 : normalize_unit u = v := by rw [hcore, hl]
      have hv : ((⟨lowerL (stripL u.data)⟩ : String), v) ∈ unit_map :=
        lookupAssoc_mem hl
      have hfix : ∀ p ∈ unit_map, normalize_unit p.2 = p.2 := by decide
      rw [h1]
      exact hfix _ hv
    | none =>
      have h1 : normalize_unit u = (⟨lowerL (stripL u.data)⟩ : String) := by
        rw [hcore, hl]
      rw [h1]
      have hsne : (⟨lowerL (stripL u.data)⟩ : String) ≠ "" := by
        intro e
        have he : lowerL (stripL u.data) = [] := congrArg String.data e
        exact hdata (List.map_eq_nil_iff.mp he)
      have hsd : (⟨lowerL (stripL (String.data ⟨lowerL (stripL u.data)⟩))⟩ : String)
          = (⟨lowerL (stripL u.data)⟩ : String) := by
        show (⟨lowerL (stripL (lowerL (stripL u.data)))⟩ : String) = _
        rw [stripL_lowerL, stripL_idem, lowerL_lowerL]
      unfold normalize_unit
      rw [if_neg hsne]
      show (match lookupAssoc unit_map
              (⟨lowerL (stripL (String.data ⟨lowerL (stripL u.data)⟩))⟩ : String) with
            | some v => v
            | none => (⟨lowerL (stripL (String.data ⟨lowerL (stripL u.data)⟩))⟩ : String))
          = (⟨lowerL (stripL u.data)⟩ : String)
      rw [hsd, hl]

/-- Witness for C10's amended theorem at the concrete input `"KG"`. -/
theorem normalize_unit_idempotent_amended_witness :
    ("KG" = "" ∨ pyStrip "KG" ≠ "") ∧
    normalize_unit (normalize_unit "KG") = normalize_unit "KG" :=
  ⟨Or.inr (by decide), normalize_unit_idempotent_amended "KG" (Or.inr (by decide))⟩

/-! ### Claim C8 -/

theorem detectVendorAux_eq_find (combined : String) :
    ∀ l : List (String × List String × String),
      detectVendorAux combined l =
        (l.find? (vendorEntryMatches combined)).map (·.1) := by
  intro l
  induction l with
  | nil => rfl
  | cons e rest ih =>
    by_cases h : vendorEntryMatches combined e = true
    · simp [detectVendorAux, h, List.find?_cons_of_pos _ h]
    · simp only [detectVendorAux, if_neg h, List.find?_cons_of_neg _ h]
      exact ih

/-- C8: `detect_vendor` scans the vendor/pattern table in its fixed
order and returns the first vendor one of whose lower-cased detection
substrings occurs in the lower-cased concatenation of filename and text
(first match wins); it returns `none` exactly when no pattern of any
vendor matches; and it is a pure function, giving the same result for
identical inputs. -/
theorem detect_vendor_first_match :
    ∀ filename text_content : String,
      detect_vendor filename text_content = detect_vendor filename text_content ∧
      detect_vendor filename text_content = detect_vendor_spec filename text_content ∧
      (detect_vendor filename text_content = none ↔
        ∀ e ∈ VENDOR_PATTERNS, ∀ p ∈ e.2.1,
          containsSub (pyLower (filename ++ " " ++ text_content)) (pyLower p)
            = false) := by
  intro filename text_content
  refine ⟨rfl, detectVendorAux_eq_find _ _, ?_⟩
  rw [detect_vendor, detectVendorAux_eq_find]
  rw [Option.map_eq_none', List.find?_eq_none]
  constructor
  · intro h e he p hp
    have h2 := h e he
    simp only [vendorEntryMatches, List.any_eq_true, not_exists, not_and] at h2
    simpa using h2 p hp
  · intro h e he
    simp only [vendorEntryMatches, List.any_eq_true, not_exists, not_and]
    intro p hp
    simp [h e he p hp]

/-! ### Claim C4 -/

/-- C4: for every uploaded document, in both the Excel and the PDF
branch and whatever the outcome of each external operation, the
top-level entry point returns a record list (`Except.ok`), never
propagating an exception. -/
theorem extraction_always_returns :
    ∀ file : UploadedFileModel, ∃ out, extract_invoice_data file = .ok out := by
  intro file
  unfold extract_invoice_data
  by_cases h : (endsWith (pyLower file.name) ".xlsx" ||
      endsWith (pyLower file.name) ".xls") = true
  · rw [if_pos h]
    exact ⟨_, rfl⟩
  · rw [if_neg h]
    cases hp : pdfBranchBody (pyLower file.name) file.pdf with
    | ok o => exact ⟨o, rfl⟩
    | error e => exact ⟨_, rfl⟩

/-! ### Claim C3 -/

/-- C3: for a PDF whose vendor matches a known pattern but whose text
layer is flagged scanned, no vendor regex parser is invoked and the
session proceeds to the vision-model fallback. -/
theorem scanned_skips_regex_parsing :
    ∀ (file : UploadedFileModel) (v : String) (out : SessionOut),
      (endsWith (pyLower file.name) ".xlsx" ||
        endsWith (pyLower file.name) ".xls") = false →
      extract_invoice_data file = .ok out →
      out.vendor = some v →
      out.isScanned = true →
      (∀ s, TraceEv.regexParse s ∉ out.trace) ∧
        TraceEv.visionFallback ∈ out.trace := by
  intro file v out hexcel hok hv hsc
  unfold extract_invoice_data at hok
  rw [if_neg (by simp [hexcel])] at hok
  unfold pdfBranchBody at hok
  cases hr : file.pdf.readBytes with
  | error e =>
    rw [hr] at hok
    cases hok
    simp at hv
  | ok n =>
    rw [hr] at hok
    cases hw : file.pdf.tmpWrite with
    | error e =>
      rw [hw] at hok
      cases hok
      simp at hv
    | ok u =>
      rw [hw] at hok
      cases hok
      simp only at hsc ⊢
      rw [hsc]
      simp

/-- Witness for C3 at a concrete scanned Hirayama file. -/
theorem scanned_skips_regex_parsing_witness :
    ((endsWith (pyLower hirayamaScanFile.name) ".xlsx" ||
        endsWith (pyLower hirayamaScanFile.name) ".xls") = false) ∧
    extract_invoice_data hirayamaScanFile = .ok hirayamaScanOut ∧
    hirayamaScanOut.vendor = some "Meat Shop Hirayama" ∧
    hirayamaScanOut.isScanned = true ∧
    ((∀ s, TraceEv.regexParse s ∉ hirayamaScanOut.trace) ∧
      TraceEv.visionFallback ∈ hirayamaScanOut.trace) :=
  ⟨by decide, by rfl, rfl, rfl,
   scanned_skips_regex_parsing hirayamaScanFile "Meat Shop Hirayama"
     hirayamaScanOut (by decide) (by rfl) rfl rfl⟩

/-! ### Claim C6 -/

theorem extractPagesText_ok_none (xs ys : List PageRead) (acc : String) :
    extractPagesText (xs ++ PageRead.ok none :: ys) acc =
      extractPagesText (xs ++ ys) acc := by
  induction xs generalizing acc with
  | nil => rfl
  | cons p xs ih =>
    cases p with
    | fail => rfl
    | ok t =>
      cases t with
      | none =>
        simp only [List.cons_append, extractPagesText]
        exact ih acc
      | some s =>
        simp only [List.cons_append, extractPagesText]
        exact ih (acc ++ s ++ "\n")

theorem extractPagesText_fail (xs ys : List PageRead) (acc : String) :
    extractPagesText (xs ++ PageRead.fail :: ys) acc =
      extractPagesText xs acc := by
  induction xs generalizing acc with
  | nil => rfl
  | cons p xs ih =>
    cases p with
    | fail => rfl
    | ok t =>
      cases t with
      | none =>
        simp only [List.cons_append, extractPagesText]
        exact ih acc
      | some s =>
        simp only [List.cons_append, extractPagesText]
        exact ih (acc ++ s ++ "\n")

/-- C6 (amended): the text layer is assembled page by page — a page
yielding no text contributes nothing, and a failing page ends page
extraction at that point, keeping the text of the earlier pages and
letting the document continue — and the pipeline computes `is_scanned`
as (length of the whitespace-stripped concatenated text) `< 100`, not as
the raw total extracted length. -/
theorem pdf_text_and_scan_flag_amended :
    (∀ (xs ys : List PageRead) (acc : String),
      extractPagesText (xs ++ PageRead.ok none :: ys) acc =
        extractPagesText (xs ++ ys) acc) ∧
    (∀ (xs ys : List PageRead) (acc : String),
      extractPagesText (xs ++ PageRead.fail :: ys) acc =
        extractPagesText xs acc) ∧
    (∀ (fn : String) (env : PdfEnv) (out : SessionOut),
      pdfBranchBody fn env = .ok out →
      out.isScanned = decide ((pyStrip out.textContent).data.length < 100)) := by
  refine ⟨extractPagesText_ok_none, extractPagesText_fail, ?_⟩
  intro fn env out hok
  unfold pdfBranchBody at hok
  cases hr : env.readBytes with
  | error e => rw [hr] at hok; cases hok
  | ok n =>
    rw [hr] at hok
    cases hw : env.tmpWrite with
    | error e => rw [hw] at hok; cases hok
    | ok u =>
      rw [hw] at hok
      cases hok
      rfl

/-- Witness for C6's amended theorem at a concrete environment. -/
theorem pdf_text_and_scan_flag_amended_witness :
    pdfBranchBody "doc.pdf" noTextPdfEnv = .ok noTextOut ∧
    noTextOut.isScanned =
      decide ((pyStrip noTextOut.textContent).data.length < 100) :=
  ⟨by rfl,
   pdf_text_and_scan_flag_amended.2.2 "doc.pdf" noTextPdfEnv noTextOut (by rfl)⟩

/-- C6 counterexample: a single page whose text layer is 100 spaces
gives 101 extracted characters — so `total_extracted_length < 100` is
false — yet the pipeline flags the document scanned, because the
implemented test strips whitespace before measuring. -/
theorem scanned_flag_not_total_length :
    pdfBranchBody "scan.pdf" whitespacePdfEnv = .ok whitespaceOut ∧
    whitespaceOut.isScanned = true ∧
    whitespaceOut.textContent.data.length = 101 := by
  refine ⟨by rfl, rfl, by decide⟩

/-! ### Deduplication lemmas -/

theorem dedupKeyed_spec {κ α : Type} [DecidableEq κ] (l : List (κ × α)) :
    ∀ seen : List κ,
      (∀ p ∈ dedupKeyed seen l, p.1 ∉ seen) ∧
      ((dedupKeyed seen l).map Prod.fst).Nodup := by
  induction l with
  | nil => intro seen; simp [dedupKeyed]
  | cons c rest ih =>
    intro seen
    obtain ⟨k, a⟩ := c
    by_cases hk : k ∈ seen
    · simpa [dedupKeyed, hk] using ih seen
    · have h1 := ih (k :: seen)
      constructor
      · intro p hp
        simp only [dedupKeyed, if_neg hk, List.mem_cons] at hp
        rcases hp with rfl | hp
        · exact hk
        · intro hs
          exact h1.1 p hp (List.mem_cons_of_mem _ hs)
      · simp only [dedupKeyed, if_neg hk, List.map_cons, List.nodup_cons]
        refine ⟨?_, h1.2⟩
        intro hmem
        simp only [List.mem_map] at hmem
        obtain ⟨p, hp, hpk⟩ := hmem
        exact h1.1 p hp (by rw [hpk]; exact List.mem_cons_self _ _)

theorem dedupKeyed_append {κ α : Type} [DecidableEq κ] (xs : List (κ × α)) :
    ∀ (ys : List (κ × α)) (seen : List κ),
      dedupKeyed seen (xs ++ ys) =
        dedupKeyed seen xs ++
          dedupKeyed (((dedupKeyed seen xs).map Prod.fst).reverse ++ seen) ys := by
  induction xs with
  | nil => intro ys seen; simp [dedupKeyed]
  | cons c xs ih =>
    intro ys seen
    obtain ⟨k, a⟩ := c
    by_cases hk : k ∈ seen
    · simpa [dedupKeyed, hk] using ih ys seen
    · simp only [List.cons_append, dedupKeyed, if_neg hk, List.map_cons,
        List.reverse_cons, List.append_eq]
      rw [ih ys (k :: seen)]
      simp [List.append_assoc]

/-! ### Fold-to-candidate-stream lemmas for the three regex parsers -/

theorem hirayama_foldl (ls : List (List Char)) :
    ∀ (cur : String) (seen : List HKey) (recs : List Record),
      ls.foldl hirayamaStep ⟨cur, seen, recs⟩ =
        ⟨hCurF cur ls,
         ((dedupKeyed seen (hCands cur ls)).map Prod.fst).reverse ++ seen,
         recs ++ (dedupKeyed seen (hCands cur ls)).map Prod.snd⟩ := by
  induction ls with
  | nil => intro cur seen recs; simp [hCurF, hCands, dedupKeyed]
  | cons l ls ih =>
    intro cur seen recs
    rw [List.foldl_cons]
    cases he : hEmit l (match dateTokOf l with | some d => d | none => cur) with
    | none =>
      have hstep : hirayamaStep ⟨cur, seen, recs⟩ l =
          ⟨(match dateTokOf l with | some d => d | none => cur), seen, recs⟩ := by
        simp only [hirayamaStep, he]
      rw [hstep, ih]
      simp only [hCands, he, Option.map_none', Option.toList_none,
        List.nil_append, hCurF, List.foldl_cons]
    | some r =>
      by_cases hk : hKey r ∈ seen
      · have hstep : hirayamaStep ⟨cur, seen, recs⟩ l =
            ⟨(match dateTokOf l with | some d => d | none => cur), seen, recs⟩ := by
          simp only [hirayamaStep, he, if_pos hk]
        rw [hstep, ih]
        simp only [hCands, he, Option.map_some', Option.toList_some,
          List.singleton_append, hCurF, List.foldl_cons, dedupKeyed, if_pos hk]
      · have hstep : hirayamaStep ⟨cur, seen, recs⟩ l =
            ⟨(match dateTokOf l with | some d => d | none => cur),
             hKey r :: seen, recs ++ [r]⟩ := by
          simp only [hirayamaStep, he, if_neg hk]
        rw [hstep, ih]
        simp only [hCands, he, Option.map_some', Option.toList_some,
          List.singleton_append, hCurF, List.foldl_cons, dedupKeyed, if_neg hk]
        simp [List.append_assoc]

theorem fnb_step_eq (date : String) (seen : List FnbKey) (recs : List Record)
    (l : List Char) :
    fnbStep date ⟨seen, recs⟩ l =
      ⟨((dedupKeyed seen (fnbLineCands date l)).map Prod.fst).reverse ++ seen,
       recs ++ (dedupKeyed seen (fnbLineCands date l)).map Prod.snd⟩ := by
  unfold fnbStep fnbLineCands processedContainsBareCaviar
  cases hc : fnbCaviarEmit date l with
  | none =>
    cases hb : fnbButterEmit date l with
    | none => simp [dedupKeyed]
    | some p =>
      obtain ⟨k, r⟩ := p
      by_cases hk : k ∈ seen <;>
        simp [dedupKeyed, hk]
  | some p =>
    obtain ⟨k1, r1⟩ := p
    by_cases hk1 : k1 ∈ seen
    · cases hb : fnbButterEmit date l with
      | none => simp [dedupKeyed, hk1]
      | some q =>
        obtain ⟨k2, r2⟩ := q
        by_cases hk2 : k2 ∈ seen <;>
          simp [dedupKeyed, hk1, hk2]
    · cases hb : fnbButterEmit date l with
      | none => simp [dedupKeyed, hk1]
      | some q =>
        obtain ⟨k2, r2⟩ := q
        by_cases hk2 : k2 ∈ k1 :: seen <;>
          simp [dedupKeyed, hk1, hk2]

theorem fnb_foldl (date : String) (ls : List (List Char)) :
    ∀ (seen : List FnbKey) (recs : List Record),
      ls.foldl (fnbStep date) ⟨seen, recs⟩ =
        ⟨((dedupKeyed seen (fnbCands date ls)).map Prod.fst).reverse ++ seen,
         recs ++ (dedupKeyed seen (fnbCands date ls)).map Prod.snd⟩ := by
  induction ls with
  | nil => intro seen recs; simp [fnbCands, dedupKeyed]
  | cons l ls ih =>
    intro seen recs
    rw [List.foldl_cons, fnb_step_eq, ih]
    have hc : fnbCands date (l :: ls) = fnbLineCands date l ++ fnbCands date ls := by
      simp [fnbCands]
    rw [hc, dedupKeyed_append]
    simp [List.append_assoc]

theorem maruyata_foldl (ls : List (List Char)) :
    ∀ (cur : Option String) (seen : List MKey) (recs : List Record),
      ls.foldl maruyataStep ⟨cur, seen, recs⟩ =
        ⟨mCurF cur ls,
         ((dedupKeyed seen (mCands cur ls)).map Prod.fst).reverse ++ seen,
         recs ++ (dedupKeyed seen (mCands cur ls)).map Prod.snd⟩ := by
  induction ls with
  | nil => intro cur seen recs; simp [mCurF, mCands, dedupKeyed]
  | cons l ls ih =>
    intro cur seen recs
    rw [List.foldl_cons]
    by_cases hs : mSkipLine (stripL l) = true
    · have hstep : maruyataStep ⟨cur, seen, recs⟩ l = ⟨cur, seen, recs⟩ := by
        simp only [maruyataStep, if_pos hs]
      rw [hstep, ih]
      simp only [mCands, if_pos hs, mCurF, List.foldl_cons, if_pos hs]
    · cases hcur : (match dateTokOf (stripL l) with
        | some d => some d
        | none => cur) with
      | none =>
        have hstep : maruyataStep ⟨cur, seen, recs⟩ l = ⟨none, seen, recs⟩ := by
          simp only [maruyataStep, if_neg hs, hcur]
        rw [hstep, ih]
        simp only [mCands, if_neg hs, hcur, List.nil_append, mCurF,
          List.foldl_cons]
      | some c =>
        cases he : mEmit (stripL l) c with
        | none =>
          have hstep : maruyataStep ⟨cur, seen, recs⟩ l = ⟨some c, seen, recs⟩ := by
            simp only [maruyataStep, if_neg hs, hcur, he]
          rw [hstep, ih]
          simp only [mCands, if_neg hs, hcur, he, Option.toList_none,
            List.nil_append, mCurF, List.foldl_cons]
        | some p =>
          obtain ⟨k, r⟩ := p
          by_cases hk : k ∈ seen
          · have hstep : maruyataStep ⟨cur, seen, recs⟩ l =
                ⟨some c, seen, recs⟩ := by
              simp only [maruyataStep, if_neg hs, hcur, he, if_pos hk]
            rw [hstep, ih]
            simp only [mCands, if_neg hs, hcur, he, Option.toList_some,
              List.singleton_append, mCurF, List.foldl_cons, dedupKeyed,
              if_pos hk]
          · have hstep : maruyataStep ⟨cur, seen, recs⟩ l =
                ⟨some c, k :: seen, recs ++ [r]⟩ := by
              simp only [maruyataStep, if_neg hs, hcur, he, if_neg hk]
            rw [hstep, ih]
            simp only [mCands, if_neg hs, hcur, he, Option.toList_some,
              List.singleton_append, mCurF, List.foldl_cons, dedupKeyed,
              if_neg hk]
            simp [List.append_assoc]

theorem parse_hirayama_eq_kept (text : String) :
    parse_hirayama_invoice text = (hKept text).map Prod.snd := by
  unfold parse_hirayama_invoice hKept
  dsimp only
  rw [hirayama_foldl]
  simp

theorem parse_fnb_eq_kept (text : String) :
    parse_french_fnb_invoice text = (fKept text).map Prod.snd := by
  unfold parse_french_fnb_invoice fKept
  dsimp only
  rw [fnb_foldl]
  simp

theorem parse_maruyata_eq_kept (text : String) :
    parse_maruyata_invoice text = (mKept text).map Prod.snd := by
  unfold parse_maruyata_invoice mKept
  dsimp only
  rw [maruyata_foldl]
  simp

/-! ### Claim C7 -/

/-- C7: each vendor regex parser is a pure function of its input text —
calling it twice on the same text gives the same records, hence the same
record count, with no state accumulating across calls (the `processed`
set is created afresh inside each call) — and within a single call the
returned records are exactly the kept keyed candidates, whose composite
dedup keys (date+quantity+amount for Hirayama, kind+quantity+amount for
French F&B, date+item+quantity+amount-string for Maruyata) are pairwise
distinct. -/
theorem regex_parser_dedup (text : String) :
    (parse_hirayama_invoice text = parse_hirayama_invoice text ∧
      parse_hirayama_invoice text = (hKept text).map Prod.snd ∧
      ((hKept text).map Prod.fst).Nodup) ∧
    (parse_french_fnb_invoice text = parse_french_fnb_invoice text ∧
      parse_french_fnb_invoice text = (fKept text).map Prod.snd ∧
      ((fKept text).map Prod.fst).Nodup) ∧
    (parse_maruyata_invoice text = parse_maruyata_invoice text ∧
      parse_maruyata_invoice text = (mKept text).map Prod.snd ∧
      ((mKept text).map Prod.fst).Nodup) :=
  ⟨⟨rfl, parse_hirayama_eq_kept text, (dedupKeyed_spec _ _).2⟩,
   ⟨rfl, parse_fnb_eq_kept text, (dedupKeyed_spec _ _).2⟩,
   ⟨rfl, parse_maruyata_eq_kept text, (dedupKeyed_spec _ _).2⟩⟩

/-! ### Claim C9: carry-forward equivalences -/

theorem hSpecDate_zero (cur : String) (l : List Char) (ls : List (List Char)) :
    hSpecDate cur (l :: ls) 0 =
      (match dateTokOf l with | some d => d | none => cur) := rfl

theorem hSpecDate_succ (cur : String) (l : List Char) (ls : List (List Char))
    (i : Nat) :
    hSpecDate cur (l :: ls) (i + 1) =
      hSpecDate (match dateTokOf l with | some d => d | none => cur) ls i := by
  unfold hSpecDate
  rw [List.take_succ_cons]
  rw [show lastDateTok dateTokOf (l :: List.take (i + 1) ls) =
      (match lastDateTok dateTokOf (List.take (i + 1) ls) with
       | some d => some d
       | none => dateTokOf l) from rfl]
  cases lastDateTok dateTokOf (List.take (i + 1) ls) with
  | some d => rfl
  | none => cases dateTokOf l <;> rfl

theorem hCands_eq_spec (ls : List (List Char)) :
    ∀ cur, hCands cur ls = hSpecCands cur ls := by
  induction ls with
  | nil => intro cur; simp [hCands, hSpecCands]
  | cons l ls ih =>
    intro cur
    rw [show hCands cur (l :: ls) =
        ((hEmit l (match dateTokOf l with | some d => d | none => cur)).map
          (fun r => (hKey r, r))).toList ++
          hCands (match dateTokOf l with | some d => d | none => cur) ls
      from rfl]
    rw [ih]
    unfold hSpecCands
    rw [show (l :: ls).length = ls.length + 1 from rfl, List.range_succ_eq_map]
    rw [List.flatMap_cons]
    congr 1
    rw [List.flatMap_map]
    simp only [Nat.succ_eq_add_one, List.getD_cons_succ, hSpecDate_succ]

theorem mSpecDate_zero (cur : Option String) (l : List Char)
    (ls : List (List Char)) :
    mSpecDate cur (l :: ls) 0 =
      (match mTok l with | some d => some d | none => cur) := rfl

theorem mSpecDate_succ (cur : Option String) (l : List Char)
    (ls : List (List Char)) (i : Nat) :
    mSpecDate cur (l :: ls) (i + 1) =
      mSpecDate (match mTok l with | some d => some d | none => cur) ls i := by
  unfold mSpecDate
  rw [List.take_succ_cons]
  rw [show lastDateTok mTok (l :: List.take (i + 1) ls) =
      (match lastDateTok mTok (List.take (i + 1) ls) with
       | some d => some d
       | none => mTok l) from rfl]
  cases lastDateTok mTok (List.take (i + 1) ls) with
  | some d => rfl
  | none => cases mTok l <;> rfl

theorem mCands_eq_spec (ls : List (List Char)) :
    ∀ cur, mCands cur ls = mSpecCands cur ls := by
  induction ls with
  | nil => intro cur; simp [mCands, mSpecCands]
  | cons l ls ih =>
    intro cur
    by_cases hs : mSkipLine (stripL l) = true
    · have ht : mTok l = none := by simp [mTok, hs]
      rw [show mCands cur (l :: ls) = mCands cur ls by
        simp only [mCands, if_pos hs]]
      rw [ih]
      unfold mSpecCands
      rw [show (l :: ls).length = ls.length + 1 from rfl, List.range_succ_eq_map]
      rw [List.flatMap_cons]
      rw [show (if mSkipLine (stripL ((l :: ls).getD 0 [])) = true then
            ([] : List (MKey × Record))
          else
            match mSpecDate cur (l :: ls) 0 with
            | some c => (mEmit (stripL ((l :: ls).getD 0 [])) c).toList
            | none => []) = [] by simp [hs]]
      rw [List.nil_append, List.flatMap_map]
      simp only [Nat.succ_eq_add_one, List.getD_cons_succ, mSpecDate_succ, ht]
    · have ht : mTok l = dateTokOf (stripL l) := by simp [mTok, hs]
      rw [show mCands cur (l :: ls) =
          (match (match dateTokOf (stripL l) with
                  | some d => some d
                  | none => cur) with
           | some c => (mEmit (stripL l) c).toList
           | none => []) ++
            mCands (match dateTokOf (stripL l) with
                    | some d => some d
                    | none => cur) ls by
        simp only [mCands, if_neg hs]]
      rw [ih]
      unfold mSpecCands
      rw [show (l :: ls).length = ls.length + 1 from rfl, List.range_succ_eq_map]
      rw [List.flatMap_cons]
      congr 1
      · rw [show (l :: ls).getD 0 [] = l from rfl, if_neg hs, mSpecDate_zero, ht]
      · rw [List.flatMap_map]
        simp only [Nat.succ_eq_add_one, List.getD_cons_succ, mSpecDate_succ, ht]

/-- C9 (amended): the Hirayama parser assigns every matched line the most
recently seen date token among the lines up to and including it, falling
back to the document-level header date for lines before any date token
(carry-forward); the Maruyata parser carries dates the same way but has
no fallback — its header year is extracted yet unused, its carried date
starts absent, and a matched line before any date token emits no record. -/
theorem date_carry_forward_amended (text : String) :
    parse_hirayama_invoice text =
      (dedupKeyed []
        (hSpecCands (ymFallbackDate text.data)
          (splitOnCharL '\n' (replaceCharL '|' ' ' text.data)))).map Prod.snd ∧
    parse_maruyata_invoice text =
      (dedupKeyed [] (mSpecCands none (splitOnCharL '\n' text.data))).map
        Prod.snd := by
  constructor
  · rw [parse_hirayama_eq_kept]
    unfold hKept
    rw [hCands_eq_spec]
  · rw [parse_maruyata_eq_kept]
    unfold mKept
    rw [mCands_eq_spec]

/-- C9 counterexample: with a header `2025年10月` present, a product line
before any `yy/mm/dd` token yields no record at all (the claim requires
it to receive the document-level fallback date `2025-10-01`); the same
product line after a date-token line is parsed, showing only the missing
carried date suppressed it. -/
theorem maruyata_pre_date_line_dropped :
    parse_maruyata_invoice maruyataNoDateText = [] ∧
    parse_maruyata_invoice maruyataWithDateText =
      [{ vendor := "丸弥太 (Maruyata Seafood)", date := "2025-10-03",
         item_name := "サーモン", quantity := mkRat 3 2, unit := "kg",
         unit_price := 1000, amount := 1500 }] := by
  constructor
  · decide
  · decide

/-! ### Claim C2 -/

/-- C2: the repair ladder undercounts.  `truncatedResponse` is JSON
truncated mid-array after exactly two syntactically complete item
objects (closing the array instead of truncating parses to a document
with two items) followed by one partial trailing object; the direct
parse fails, and the ladder recovers only one record — the complete
second item (`amount: -1`, a credit line) does not match the stage-(b)
structural regex, whose numerics are `[\d.]+`, so it is silently
dropped, where the claim requires exactly two. -/
theorem repair_ladder_drops_complete_item :
    (json_loads truncatedResponse).isNone = true ∧
    (json_loads closedResponse).map countItems = some 2 ∧
    (processResponseContent "2025-10-12" truncatedResponse).length = 1 :=
  ⟨rfl, rfl, rfl⟩

/-! ### Claim C1 -/

/-- C1 counterexample: a well-formed model response whose single item has
`quantity: 0` and `amount: 0` — the AI extraction path converts it to a
record without any zero filter, so the returned list contains a record
with `amount = 0` and `quantity = 0`. -/
theorem ai_zero_record_not_filtered :
    (json_loads zeroItemResponse).isSome = true ∧
    processResponseContent "2025-10-12" zeroItemResponse =
      [{ vendor := "V", date := "2025-10-01", item_name := "x", quantity := 0,
         unit := "pc", unit_price := 0, amount := 0 }] :=
  ⟨rfl, by decide⟩

theorem manmatsu_rows_nonzero (filename nowMonth : String) (rows : List MRow) :
    ∀ r ∈ parse_manmatsu_rows filename nowMonth rows,
      r.quantity ≠ 0 ∧ r.amount ≠ 0 := by
  intro r hr
  simp only [parse_manmatsu_rows, List.mem_filterMap] at hr
  obtain ⟨row, _, h⟩ := hr
  unfold manmatsuRow at h
  dsimp only at h
  by_cases hg : (decide (cellStrOr "" row.item = "") ||
      decide (cellStrOr "" row.item = "nan") ||
      decide ((pyStrip (cellStrOr "" row.item)).data.length < 2)) = true
  · rw [if_pos hg] at h; cases h
  · rw [if_neg hg] at h
    cases hfq : cellFloatOrZero row.qty with
    | none =>
      cases hfa : cellFloatOrZero row.amount with
      | none => rw [hfq, hfa] at h; dsimp only at h; cases h
      | some amount => rw [hfq, hfa] at h; dsimp only at h; cases h
    | some qty =>
      cases hfa : cellFloatOrZero row.amount with
      | none => rw [hfq, hfa] at h; dsimp only at h; cases h
      | some amount =>
        rw [hfq, hfa] at h
        dsimp only at h
        by_cases hz : (decide (qty = 0) || decide (amount = 0)) = true
        · rw [if_pos hz] at h; cases h
        · rw [if_neg hz] at h
          cases hfu : optCellFloatOr (if qty > 0 then amount / qty else 0)
              row.unit_price with
          | none => rw [hfu] at h; dsimp only at h; cases h
          | some up =>
            rw [hfu] at h
            dsimp only at h
            cases h
            simp only [Bool.or_eq_true, decide_eq_true_eq, not_or] at hz
            exact ⟨hz.1, hz.2⟩

theorem generic_rows_nonzero (filename nowMonth : String) (rows : List GRow) :
    ∀ r ∈ parse_generic_rows filename nowMonth rows, r.amount ≠ 0 := by
  intro r hr
  simp only [parse_generic_rows, List.mem_filterMap] at hr
  obtain ⟨row, _, h⟩ := hr
  unfold genericRow at h
  dsimp only at h
  by_cases hg : (decide (cellStrOr "" row.item = "") ||
      decide (cellStrOr "" row.item = "nan")) = true
  · rw [if_pos hg] at h; cases h
  · rw [if_neg hg] at h
    cases hfq : optCellFloatOr 1 row.qty with
    | none =>
      cases hfa : optCellFloatOr 0 row.amount with
      | none => rw [hfq, hfa] at h; dsimp only at h; cases h
      | some amount => rw [hfq, hfa] at h; dsimp only at h; cases h
    | some qty =>
      cases hfa : optCellFloatOr 0 row.amount with
      | none => rw [hfq, hfa] at h; dsimp only at h; cases h
      | some amount =>
        rw [hfq, hfa] at h
        dsimp only at h
        by_cases hz : amount = 0
        · rw [if_pos hz] at h; cases h
        · rw [if_neg hz] at h
          cases hfu : optCellFloatOr (if qty > 0 then amount / qty else 0)
              row.unit_price with
          | none => rw [hfu] at h; dsimp only at h; cases h
          | some up =>
            rw [hfu] at h
            dsimp only at h
            cases h
            exact hz

/-- A non-string cell whose `orZero` form does not compare equal to zero
cannot float-convert to zero. -/
theorem orZero_float_ne_zero {c : Cell} (hstr : c.isStr = false)
    (hz : (orZero c).eqZero = false) {q : ℚ}
    (hf : (orZero c).float = some q) : q ≠ 0 := by
  cases c with
  | na => simp [orZero, Cell.notna, Cell.eqZero] at hz
  | num q0 =>
    simp only [orZero, Cell.notna, if_pos, Cell.eqZero, decide_eq_false_iff_not]
      at hz hf
    simp only [Cell.float, Option.some.injEq] at hf
    rw [← hf]
    simpa using hz
  | str s => simp [Cell.isStr] at hstr
  | date iso => simp [orZero, Cell.notna, Cell.float] at hf

theorem french_rows_nonzero (rows : List FRow)
    (hcells : ∀ row ∈ rows, row.qty.isStr = false ∧ row.amount.isStr = false) :
    ∀ r ∈ parse_french_fnb_excel_rows rows,
      r.quantity ≠ 0 ∧ r.amount ≠ 0 := by
  intro r hr
  simp only [parse_french_fnb_excel_rows, List.mem_filterMap] at hr
  obtain ⟨row, hrow, h⟩ := hr
  obtain ⟨hqs, has⟩ := hcells row hrow
  unfold frenchFnbExcelRow at h
  dsimp only at h
  by_cases hd : (!row.date_val.notna) = true
  · rw [if_pos hd] at h; cases h
  · rw [if_neg hd] at h
    by_cases hg : (decide (cellStrOr "" row.product = "") ||
        decide (cellStrOr "" row.product = "nan")) = true
    · rw [if_pos hg] at h; cases h
    · rw [if_neg hg] at h
      by_cases hz :
          ((orZero row.qty).eqZero || (orZero row.amount).eqZero) = true
      · rw [if_pos hz] at h; cases h
      · rw [if_neg hz] at h
        cases hfq : (orZero row.qty).float with
        | none =>
          cases hfu : (orZero row.price).float with
          | none =>
            cases hfa : (orZero row.amount).float with
            | none => rw [hfq, hfu, hfa] at h; dsimp only at h; cases h
            | some am => rw [hfq, hfu, hfa] at h; dsimp only at h; cases h
          | some up =>
            cases hfa : (orZero row.amount).float with
            | none => rw [hfq, hfu, hfa] at h; dsimp only at h; cases h
            | some am => rw [hfq, hfu, hfa] at h; dsimp only at h; cases h
        | some q =>
          cases hfu : (orZero row.price).float with
          | none =>
            cases hfa : (orZero row.amount).float with
            | none => rw [hfq, hfu, hfa] at h; dsimp only at h; cases h
            | some am => rw [hfq, hfu, hfa] at h; dsimp only at h; cases h
          | some up =>
            cases hfa : (orZero row.amount).float with
            | none => rw [hfq, hfu, hfa] at h; dsimp only at h; cases h
            | some am =>
              rw [hfq, hfu, hfa] at h
              dsimp only at h
              cases h
              simp only [Bool.or_eq_true, not_or, Bool.not_eq_true] at hz
              exact ⟨orZero_float_ne_zero hqs hz.1 hfq,
                     orZero_float_ne_zero has hz.2 hfa⟩

/-- C1 (amended): the zero filters live in the spreadsheet row parsers
only — the Manmatsu parser discards rows with zero quantity or amount,
the generic parser discards rows with zero amount, and the French F&B
Excel parser discards rows whose raw quantity/amount cells compare equal
to 0 (so for non-string cells its records have nonzero quantity and
amount; a textual `"0"` cell would slip through).  The vendor regex
parsers and the AI vision extraction apply no such filter (see the
counterexample). -/
theorem zero_filter_amended :
    (∀ (filename nowMonth : String) (rows : List MRow),
      ∀ r ∈ parse_manmatsu_rows filename nowMonth rows,
        r.quantity ≠ 0 ∧ r.amount ≠ 0) ∧
    (∀ (filename nowMonth : String) (rows : List GRow),
      ∀ r ∈ parse_generic_rows filename nowMonth rows, r.amount ≠ 0) ∧
    (∀ rows : List FRow,
      (∀ row ∈ rows, row.qty.isStr = false ∧ row.amount.isStr = false) →
      ∀ r ∈ parse_french_fnb_excel_rows rows,
        r.quantity ≠ 0 ∧ r.amount ≠ 0) :=
  ⟨manmatsu_rows_nonzero, generic_rows_nonzero, french_rows_nonzero⟩

/-- Witness for C1's amended theorem: one numeric French F&B row. -/
theorem zero_filter_amended_witness :
    (∀ row ∈ [frenchWitnessRow],
      row.qty.isStr = false ∧ row.amount.isStr = false) ∧
    (∀ r ∈ parse_french_fnb_excel_rows [frenchWitnessRow],
      r.quantity ≠ 0 ∧ r.amount ≠ 0) :=
  ⟨by decide, zero_filter_amended.2.2 [frenchWitnessRow] (by decide)⟩

end FoodCost
